import Mathlib

set_option maxHeartbeats 1000000

/-!
Verification development for the Scrabble session engine in
`src/scrabble-frontend/src/App.js` (the server part, class `ScrabbleGame`).
The data model and every operation below are shallow embeddings of the
JavaScript source; definitions whose doc comment says "spec formula" or
"spec check" instead transcribe the natural-language specification, for
refinement comparisons.
-/

/-- Premium square kinds: the four keys of the PREMIUM_SQUARES object. -/
inductive Premium where
  | TW
  | DW
  | TL
  | DL
deriving DecidableEq

/-- Tiles as minted by initializeTileBag: letter, point value, id.  In the
source the id is the string letter + "-" + i + "-" + Math.random(); the
(letter, i) part alone already distinguishes all 100 tiles, so the id is
modelled as that pair. -/
structure Tile where
  letter : Char
  value : Nat
  id : Char × Nat
deriving DecidableEq

/-- One entry of the playedTiles argument: {row, col, tile}. -/
structure Placement where
  row : Nat
  col : Nat
  tile : Tile
deriving DecidableEq

/-- Player records as built by addPlayer. -/
structure Player where
  id : String
  name : String
  score : Nat
  tiles : List Tile
  isHost : Bool
deriving DecidableEq

/-- The board: a 15x15 grid of optional tiles (JS: nested arrays of null/tile). -/
abbrev Board := List (List (Option Tile))

/-- The mutable fields of the ScrabbleGame class. -/
structure ScrabbleGame where
  roomId : String
  players : List Player
  currentPlayerIndex : Nat
  board : Board
  tileBag : List Tile
  gameStarted : Bool
  firstMoveMade : Bool
  hostId : Option String
deriving DecidableEq

/-- TILE_DISTRIBUTION from server.js. -/
def TILE_DISTRIBUTION : List (Char × Nat) :=
  [('A', 9), ('B', 2), ('C', 2), ('D', 4), ('E', 12), ('F', 2), ('G', 3), ('H', 2),
   ('I', 9), ('J', 1), ('K', 1), ('L', 4), ('M', 2), ('N', 6), ('O', 8), ('P', 2),
   ('Q', 1), ('R', 6), ('S', 4), ('T', 6), ('U', 4), ('V', 2), ('W', 2), ('X', 1),
   ('Y', 2), ('Z', 1), ('_', 2)]

/-- TILE_VALUES from server.js. -/
def TILE_VALUES : List (Char × Nat) :=
  [('A', 1), ('B', 3), ('C', 3), ('D', 2), ('E', 1), ('F', 4), ('G', 2), ('H', 4),
   ('I', 1), ('J', 8), ('K', 5), ('L', 1), ('M', 3), ('N', 1), ('O', 1), ('P', 3),
   ('Q', 10), ('R', 1), ('S', 1), ('T', 1), ('U', 1), ('V', 4), ('W', 4), ('X', 8),
   ('Y', 4), ('Z', 10), ('_', 0)]

/-- Value of a letter (JS: TILE_VALUES[letter]). -/
def tileValue (c : Char) : Nat := (TILE_VALUES.lookup c).getD 0

/-- The TW positions of the PREMIUM_SQUARES object in server.js. -/
def TW_SQUARES : List (Nat × Nat) :=
  [(0, 0), (0, 7), (0, 14), (7, 0), (7, 14), (14, 0), (14, 7), (14, 14)]

/-- The DW positions of the PREMIUM_SQUARES object in server.js. -/
def DW_SQUARES : List (Nat × Nat) :=
  [(1, 1), (2, 2), (3, 3), (4, 4), (1, 13), (2, 12), (3, 11), (4, 10),
   (13, 1), (12, 2), (11, 3), (10, 4), (13, 13), (12, 12), (11, 11), (10, 10), (7, 7)]

/-- The TL positions of the PREMIUM_SQUARES object in server.js. -/
def TL_SQUARES : List (Nat × Nat) :=
  [(1, 5), (1, 9), (5, 1), (5, 5), (5, 9), (5, 13), (9, 1), (9, 5), (9, 9), (9, 13),
   (13, 5), (13, 9)]

/-- The DL positions of the PREMIUM_SQUARES object in server.js. -/
def DL_SQUARES : List (Nat × Nat) :=
  [(0, 3), (0, 11), (2, 6), (2, 8), (3, 0), (3, 7), (3, 14), (6, 2), (6, 6), (6, 8),
   (6, 12), (7, 3), (7, 11), (8, 2), (8, 6), (8, 8), (8, 12), (11, 0), (11, 7),
   (11, 14), (12, 6), (12, 8), (14, 3), (14, 11)]

/-- PREMIUM_SQUARES, in the key insertion order TW, DW, TL, DL that the JS
for-in loops observe. -/
def PREMIUM_SQUARES : List (Premium × List (Nat × Nat)) :=
  [(Premium.TW, TW_SQUARES), (Premium.DW, DW_SQUARES),
   (Premium.TL, TL_SQUARES), (Premium.DL, DL_SQUARES)]

/-- Swap of two positions of a list, the body of the shuffle loop. -/
def listSwap (l : List α) (i j : Nat) : List α :=
  match l[i]?, l[j]? with
  | some a, some b => (l.set i b).set j a
  | _, _ => l

/-- The Fisher-Yates shuffle of ScrabbleGame.shuffle.  The random draws
Math.floor(Math.random() * (i + 1)) are supplied from the outside as the list
js; entry k is reduced mod (i + 1), so every js yields indices in range and
every permutation is reachable by some js. -/
def ScrabbleGame.shuffle (array : List α) (js : List Nat) : List α :=
  (List.range (array.length - 1)).foldl
    (fun shuffled k =>
      let i := array.length - 1 - k
      let j := (js.getD k 0) % (i + 1)
      listSwap shuffled i j)
    array

/-- The 100 tiles pushed by initializeTileBag before the shuffle. -/
def canonicalTileList : List Tile :=
  TILE_DISTRIBUTION.flatMap fun lc =>
    (List.range lc.2).map fun i => { letter := lc.1, value := tileValue lc.1, id := (lc.1, i) }

/-- ScrabbleGame.initializeTileBag. -/
def ScrabbleGame.initializeTileBag (js : List Nat) : List Tile :=
  ScrabbleGame.shuffle canonicalTileList js

/-- The ScrabbleGame constructor (new ScrabbleGame(roomId)). -/
def ScrabbleGame.create (roomId : String) (js : List Nat) : ScrabbleGame :=
  { roomId := roomId
    players := []
    currentPlayerIndex := 0
    board := List.replicate 15 (List.replicate 15 none)
    tileBag := ScrabbleGame.initializeTileBag js
    gameStarted := false
    firstMoveMade := false
    hostId := none }

/-- ScrabbleGame.addPlayer.  Returns the JS boolean result with the new state. -/
def ScrabbleGame.addPlayer (g : ScrabbleGame) (socketId name : String) :
    Bool × ScrabbleGame :=
  if g.players.length ≥ 4 then (false, g)
  else
    let isHost := g.players.length = 0
    let player : Player :=
      { id := socketId
        name := if name = "" then "Player " ++ toString (g.players.length + 1) else name
        score := 0
        tiles := []
        isHost := isHost }
    let hostId := if isHost then some socketId else g.hostId
    (true, { g with players := g.players ++ [player], hostId := hostId })

/-- ScrabbleGame.removePlayer: returns the rack to the bag, splices the player
out, promotes the first remaining player to host if the host left, and clamps
the turn index to 0 when it is not below the shrunken roster. -/
def ScrabbleGame.removePlayer (g : ScrabbleGame) (socketId : String) : ScrabbleGame :=
  match g.players.findIdx? (fun p => p.id == socketId) with
  | none => g
  | some index =>
    match g.players[index]? with
    | none => g
    | some removedPlayer =>
      let tileBag := g.tileBag ++ removedPlayer.tiles
      let players := g.players.eraseIdx index
      let promoted :=
        if removedPlayer.isHost then
          match players with
          | [] => (players, g.hostId)
          | p0 :: rest => ({ p0 with isHost := true } :: rest, some p0.id)
        else (players, g.hostId)
      let currentPlayerIndex :=
        if g.currentPlayerIndex ≥ promoted.1.length then 0 else g.currentPlayerIndex
      { g with players := promoted.1, tileBag := tileBag, hostId := promoted.2,
               currentPlayerIndex := currentPlayerIndex }

/-- ScrabbleGame.dealTiles acting on a rack and the bag: pops
min(count, bag.length) tiles off the bag tail and pushes them onto the rack.
Returns the new rack and the new bag. -/
def ScrabbleGame.dealTiles (tiles bag : List Tile) (count : Nat) :
    List Tile × List Tile :=
  let tilesToDeal := min count bag.length
  (tiles ++ (bag.drop (bag.length - tilesToDeal)).reverse,
   bag.take (bag.length - tilesToDeal))

/-- One iteration of the startGame dealing loop: deal 7 tiles from the
running bag to one player. -/
def startDeal (acc : List Player × List Tile) (p : Player) : List Player × List Tile :=
  let d := ScrabbleGame.dealTiles p.tiles acc.2 7
  (acc.1 ++ [{ p with tiles := d.1 }], d.2)

/-- ScrabbleGame.startGame: deals 7 tiles to each player in roster order. -/
def ScrabbleGame.startGame (g : ScrabbleGame) : Bool × ScrabbleGame :=
  if g.gameStarted ∨ g.players.length < 2 then (false, g)
  else
    let dealt := g.players.foldl startDeal ([], g.tileBag)
    (true, { g with gameStarted := true, players := dealt.1, tileBag := dealt.2 })

/-- ScrabbleGame.getCurrentPlayer (players[currentPlayerIndex]). -/
def ScrabbleGame.getCurrentPlayer (g : ScrabbleGame) : Option Player :=
  g.players[g.currentPlayerIndex]?

/-- Strict occupancy of a board cell: there is a tile at (r, c). -/
def occupiedAt (b : Board) (r c : Nat) : Bool :=
  match b[r]? with
  | some rowL =>
    match rowL[c]? with
    | some (some _) => true
    | _ => false
  | none => false

/-- The JS expression board[r][c] !== null.  Reading past the end of a row
gives undefined, and undefined !== null is true, so a missing cell counts as
not-null; a missing row would fault in JS and never arises on the 15x15 board. -/
def cellNotNull (b : Board) (r c : Nat) : Bool :=
  match b[r]? with
  | some rowL =>
    match rowL[c]? with
    | some cell => cell.isSome
    | none => true
  | none => true

/-- Cell lookup that distinguishes in-board empty cells (some none) from
out-of-board positions (none). -/
def cellAt (b : Board) (r c : Nat) : Option (Option Tile) :=
  b[r]?.bind fun rowL => rowL[c]?

/-- The neighbour scan of validation step 5: some 4-neighbour inside the
15x15 board holds a tile. -/
def hasOccupiedNeighbor (b : Board) (row col : Nat) : Bool :=
  let neighbors : List (Int × Int) :=
    [((row : Int) - 1, (col : Int)), ((row : Int) + 1, (col : Int)),
     ((row : Int), (col : Int) - 1), ((row : Int), (col : Int) + 1)]
  neighbors.any fun rc =>
    decide (0 ≤ rc.1 ∧ rc.1 < 15 ∧ 0 ≤ rc.2 ∧ rc.2 < 15) &&
      occupiedAt b rc.1.toNat rc.2.toNat

/-- The contiguity scan of ScrabbleGame.validateMove: along the row when all
placements share one row, else along the column, JS sorts the placed
coordinates and walks the inclusive range between the endpoints, requiring a
new placement or a not-null board cell at every index. -/
def ScrabbleGame.contiguousCheck (b : Board) (playedTiles : List Placement)
    (pt0 : Placement) : Bool :=
  if (playedTiles.map Placement.row).dedup.length = 1 then
    let row := pt0.row
    let sortedCols := (playedTiles.map Placement.col).insertionSort (· ≤ ·)
    (List.range' (sortedCols.headD 0) (sortedCols.getLastD 0 + 1 - sortedCols.headD 0)).all
      fun i => (playedTiles.any fun pt => pt.col == i) || cellNotNull b row i
  else
    let col := pt0.col
    let sortedRows := (playedTiles.map Placement.row).insertionSort (· ≤ ·)
    (List.range' (sortedRows.headD 0) (sortedRows.getLastD 0 + 1 - sortedRows.headD 0)).all
      fun i => (playedTiles.any fun pt => pt.row == i) || cellNotNull b i col

/-- ScrabbleGame.validateMove: the five sequential checks, each early return
carrying its own message. -/
def ScrabbleGame.validateMove (g : ScrabbleGame) (playedTiles : List Placement) :
    Option String :=
  match playedTiles with
  | [] => some "No tiles played"
  | pt0 :: _ =>
    if ¬g.firstMoveMade ∧ ¬(playedTiles.any fun pt => pt.row == 7 && pt.col == 7) then
      some "First word must cross the center square"
    else if (playedTiles.map Placement.row).dedup.length > 1 ∧
        (playedTiles.map Placement.col).dedup.length > 1 then
      some "Tiles must be in a single row or column"
    else if ¬ScrabbleGame.contiguousCheck g.board playedTiles pt0 then
      some "Tiles must be contiguous"
    else if g.firstMoveMade ∧
        ¬(playedTiles.any fun pt => hasOccupiedNeighbor g.board pt.row pt.col) then
      some "New tiles must connect to existing tiles"
    else none

/-- ScrabbleGame.getPremiumSquare: null for an occupied cell, else the first
key of PREMIUM_SQUARES whose position list holds (row, col). -/
def ScrabbleGame.getPremiumSquare (b : Board) (row col : Nat) : Option Premium :=
  if cellNotNull b row col then none
  else (PREMIUM_SQUARES.find? fun kv => kv.2.contains (row, col)).map Prod.fst

/-- Value credited by the line-bonus scan for an existing board tile at
(r, c); 0 for an empty cell. -/
def existingValue (b : Board) (r c : Nat) : Nat :=
  match cellAt b r c with
  | some (some t) => t.value
  | _ => 0

/-- One iteration of the scoring loop: the accumulator carries the running
(totalScore, wordMultiplier) pair while one placed tile is scored. -/
def scoreStep (b : Board) (acc : Nat × Nat) (pt : Placement) : Nat × Nat :=
  let tileScore := pt.tile.value
  let premiumKey := ScrabbleGame.getPremiumSquare b pt.row pt.col
  let tileScore := if premiumKey = some Premium.DL then tileScore * 2 else tileScore
  let tileScore := if premiumKey = some Premium.TL then tileScore * 3 else tileScore
  let wordMultiplier := if premiumKey = some Premium.DW then acc.2 * 2 else acc.2
  let wordMultiplier :=
    if premiumKey = some Premium.TW then wordMultiplier * 3 else wordMultiplier
  (acc.1 + tileScore, wordMultiplier)

/-- ScrabbleGame.calculateScore: per-tile letter premiums and the word
multiplier accumulate in one pass, then the in-line values of pre-existing
tiles between the placed endpoints are added, the sum is multiplied, and a
7-tile move adds a flat 50. -/
def ScrabbleGame.calculateScore (b : Board) (playedTiles : List Placement) : Nat :=
  let acc := playedTiles.foldl (scoreStep b) (0, 1)
  let totalScore :=
    match playedTiles with
    | [] => acc.1
    | pt0 :: _ =>
      if (playedTiles.map Placement.row).dedup.length = 1 then
        let row := pt0.row
        let sortedCols := (playedTiles.map Placement.col).insertionSort (· ≤ ·)
        acc.1 + ((List.range' (sortedCols.headD 0)
            (sortedCols.getLastD 0 + 1 - sortedCols.headD 0)).map fun col =>
          if ¬(playedTiles.any fun pt => pt.col == col) then existingValue b row col
          else 0).sum
      else
        let col := pt0.col
        let sortedRows := (playedTiles.map Placement.row).insertionSort (· ≤ ·)
        acc.1 + ((List.range' (sortedRows.headD 0)
            (sortedRows.getLastD 0 + 1 - sortedRows.headD 0)).map fun row =>
          if ¬(playedTiles.any fun pt => pt.row == row) then existingValue b row col
          else 0).sum
  let totalScore := totalScore * acc.2
  if playedTiles.length = 7 then totalScore + 50 else totalScore

/-- Write of one placed tile into its board cell (board[r][c] = tile). -/
def placeTile (b : Board) (r c : Nat) (t : Tile) : Board :=
  b.set r ((b.getD r []).set c (some t))

/-- ScrabbleGame.playMove.  The score is computed before the tiles are placed;
the rack then loses the played ids, is refilled from the bag, and the turn
advances.  Every rejection leaves the state untouched.  The two none branches
match states where JS itself would fault (turn index out of range) and are
unreachable from constructed sessions. -/
def ScrabbleGame.playMove (g : ScrabbleGame) (playerId : String)
    (playedTiles : List Placement) : Except String Nat × ScrabbleGame :=
  match g.players.findIdx? (fun p => p.id == playerId) with
  | none => (Except.error "Not your turn", g)
  | some idx =>
    match g.players[g.currentPlayerIndex]?, g.players[idx]? with
    | some cur, some player =>
      if cur.id ≠ playerId then (Except.error "Not your turn", g)
      else
        match ScrabbleGame.validateMove g playedTiles with
        | some e => (Except.error e, g)
        | none =>
          let score := ScrabbleGame.calculateScore g.board playedTiles
          let board := playedTiles.foldl
            (fun b pt => placeTile b pt.row pt.col pt.tile) g.board
          let playedTileIds := playedTiles.map fun pt => pt.tile.id
          let keptTiles := player.tiles.filter fun t => !(playedTileIds.contains t.id)
          let dealt := ScrabbleGame.dealTiles keptTiles g.tileBag playedTiles.length
          let players := g.players.set idx
            { player with score := player.score + score, tiles := dealt.1 }
          (Except.ok score,
            { g with
              board := board
              players := players
              tileBag := dealt.2
              firstMoveMade := true
              currentPlayerIndex := (g.currentPlayerIndex + 1) % players.length })
    | _, _ => (Except.error "Not your turn", g)

/-- ScrabbleGame.passTurn: only the turn cursor moves. -/
def ScrabbleGame.passTurn (g : ScrabbleGame) (playerId : String) :
    Option String × ScrabbleGame :=
  match g.players.find? (fun p => p.id == playerId) with
  | none => (some "Not your turn", g)
  | some _ =>
    match g.players[g.currentPlayerIndex]? with
    | none => (some "Not your turn", g)
    | some cur =>
      if cur.id ≠ playerId then (some "Not your turn", g)
      else (none, { g with currentPlayerIndex :=
            (g.currentPlayerIndex + 1) % g.players.length })

/-- ScrabbleGame.exchangeTiles: the named rack tiles are returned to the bag,
the whole bag is shuffled, and the same count is redrawn from its tail. -/
def ScrabbleGame.exchangeTiles (g : ScrabbleGame) (playerId : String)
    (tileIds : List (Char × Nat)) (js : List Nat) : Option String × ScrabbleGame :=
  match g.players.findIdx? (fun p => p.id == playerId) with
  | none => (some "Not your turn", g)
  | some idx =>
    match g.players[g.currentPlayerIndex]?, g.players[idx]? with
    | some cur, some player =>
      if cur.id ≠ playerId then (some "Not your turn", g)
      else if g.tileBag.length < tileIds.length then (some "Not enough tiles in bag", g)
      else
        let exchangedTiles := player.tiles.filter fun t => tileIds.contains t.id
        let keptTiles := player.tiles.filter fun t => !(tileIds.contains t.id)
        let bag := ScrabbleGame.shuffle (g.tileBag ++ exchangedTiles) js
        let dealt := ScrabbleGame.dealTiles keptTiles bag exchangedTiles.length
        let players := g.players.set idx { player with tiles := dealt.1 }
        (none,
          { g with
            players := players
            tileBag := dealt.2
            currentPlayerIndex := (g.currentPlayerIndex + 1) % players.length })
    | _, _ => (some "Not your turn", g)

/-- Public player summary inside getGameState. -/
structure PlayerSummary where
  id : String
  name : String
  score : Nat
  tileCount : Nat
  isHost : Bool
deriving DecidableEq

/-- The public view built by ScrabbleGame.getGameState. -/
structure GameState where
  roomId : String
  players : List PlayerSummary
  currentPlayerIndex : Nat
  board : Board
  gameStarted : Bool
  tilesRemaining : Nat
  hostId : Option String
deriving DecidableEq

/-- ScrabbleGame.getGameState. -/
def ScrabbleGame.getGameState (g : ScrabbleGame) : GameState :=
  { roomId := g.roomId
    players := g.players.map fun p =>
      { id := p.id, name := p.name, score := p.score,
        tileCount := p.tiles.length, isHost := p.isHost }
    currentPlayerIndex := g.currentPlayerIndex
    board := g.board
    gameStarted := g.gameStarted
    tilesRemaining := g.tileBag.length
    hostId := g.hostId }

/-- ScrabbleGame.getPlayerState: the private rack view. -/
def ScrabbleGame.getPlayerState (g : ScrabbleGame) (playerId : String) :
    Option (List Tile) :=
  (g.players.find? fun p => p.id == playerId).map Player.tiles

/-- Minimum of a list of naturals (0 for the empty list). -/
def listMin : List Nat → Nat
  | [] => 0
  | x :: xs => xs.foldl min x

/-- Maximum of a list of naturals (0 for the empty list). -/
def listMax : List Nat → Nat
  | [] => 0
  | x :: xs => xs.foldl max x

/-- Spec check 4 transcribed: along the row when the placements have one
distinct row, else along the column, every index of the inclusive min-max
range of the placed coordinates is covered by a new placement or by a
pre-existing board tile. -/
def specContiguous (b : Board) (pts : List Placement) : Bool :=
  if (pts.map Placement.row).dedup.length = 1 then
    let row := (pts.map Placement.row).headD 0
    let lo := listMin (pts.map Placement.col)
    let hi := listMax (pts.map Placement.col)
    (List.range' lo (hi + 1 - lo)).all fun i =>
      (pts.any fun pt => pt.col == i) || occupiedAt b row i
  else
    let col := (pts.map Placement.col).headD 0
    let lo := listMin (pts.map Placement.row)
    let hi := listMax (pts.map Placement.row)
    (List.range' lo (hi + 1 - lo)).all fun i =>
      (pts.any fun pt => pt.row == i) || occupiedAt b i col

/-- Move validation transcribed check by check from the specification, in its
stated order, with the first failing check reporting its own reason: (1)
non-empty set, (2) before the opening move the set contains (7,7), (3) single
row or single column, (4) contiguity over the min-max range, (5) after the
opening move some placed tile is 4-adjacent to a pre-existing tile. -/
def specValidateMove (g : ScrabbleGame) (pts : List Placement) : Option String :=
  if pts.isEmpty then some "No tiles played"
  else if ¬g.firstMoveMade ∧ ¬(pts.any fun pt => pt.row == 7 && pt.col == 7) then
    some "First word must cross the center square"
  else if (pts.map Placement.row).dedup.length > 1 ∧
      (pts.map Placement.col).dedup.length > 1 then
    some "Tiles must be in a single row or column"
  else if ¬specContiguous g.board pts then
    some "Tiles must be contiguous"
  else if g.firstMoveMade ∧
      ¬(pts.any fun pt => hasOccupiedNeighbor g.board pt.row pt.col) then
    some "New tiles must connect to existing tiles"
  else none

/-- Spec formula: the letter score of one placed tile, doubled on a
DoubleLetter cell and tripled on a TripleLetter cell, premium read against
the pre-move board. -/
def specLetterScore (b : Board) (pt : Placement) : Nat :=
  match ScrabbleGame.getPremiumSquare b pt.row pt.col with
  | some Premium.DL => pt.tile.value * 2
  | some Premium.TL => pt.tile.value * 3
  | _ => pt.tile.value

/-- Spec formula: the word-multiplier contribution of one placed tile, 2 on a
DoubleWord cell and 3 on a TripleWord cell. -/
def specWordFactor (b : Board) (pt : Placement) : Nat :=
  match ScrabbleGame.getPremiumSquare b pt.row pt.col with
  | some Premium.DW => 2
  | some Premium.TW => 3
  | _ => 1

/-- Spec formula: raw values of the pre-existing tiles lying inside the placed
min-max range of the placed line. -/
def specLineBonus (b : Board) (pts : List Placement) : Nat :=
  if (pts.map Placement.row).dedup.length = 1 then
    let row := (pts.map Placement.row).headD 0
    let lo := listMin (pts.map Placement.col)
    let hi := listMax (pts.map Placement.col)
    ((List.range' lo (hi + 1 - lo)).map fun col =>
      if ¬(pts.any fun pt => pt.col == col) then existingValue b row col else 0).sum
  else
    let col := (pts.map Placement.col).headD 0
    let lo := listMin (pts.map Placement.row)
    let hi := listMax (pts.map Placement.row)
    ((List.range' lo (hi + 1 - lo)).map fun row =>
      if ¬(pts.any fun pt => pt.row == row) then existingValue b row col else 0).sum

/-- Spec formula for the awarded score: (sum of placed letter scores plus the
line bonus) times the product of the placed word multipliers, plus a flat 50
exactly when 7 tiles were placed, added after the multiplication. -/
def specScore (b : Board) (pts : List Placement) : Nat :=
  ((pts.map (specLetterScore b)).sum + specLineBonus b pts) *
      (pts.map (specWordFactor b)).prod +
    (if pts.length = 7 then 50 else 0)

/-- Tiles currently lying on the board. -/
def boardTiles (b : Board) : List Tile :=
  (b.flatMap fun r => r).filterMap fun x => x

/-- The multiset union of the claims: bag tiles, every rack, and the board. -/
def allTiles (g : ScrabbleGame) : List Tile :=
  g.tileBag ++ g.players.flatMap Player.tiles ++ boardTiles g.board

/-- A 15x15 board shape. -/
def boardWf (b : Board) : Prop :=
  b.length = 15 ∧ ∀ rowL ∈ b, rowL.length = 15

/-- One engine operation on a session.  For playMove the constructor carries
the scope of claim C1: the placed tiles are drawn from the rack of the mover (the
ids being distinct) and go to distinct empty cells of the pre-move board. -/
inductive Step : ScrabbleGame → ScrabbleGame → Prop where
  | add (g : ScrabbleGame) (pid nm : String) : Step g (g.addPlayer pid nm).2
  | start (g : ScrabbleGame) : Step g g.startGame.2
  | play (g : ScrabbleGame) (pid : String) (pts : List Placement)
      (hrack : ∀ idx p, g.players.findIdx? (fun q => q.id == pid) = some idx →
        g.players[idx]? = some p → ∀ pt ∈ pts, pt.tile ∈ p.tiles)
      (hids : (pts.map fun pt => pt.tile.id).Nodup)
      (hcells : (pts.map fun pt => (pt.row, pt.col)).Nodup)
      (hempty : ∀ pt ∈ pts, cellAt g.board pt.row pt.col = some none) :
      Step g (g.playMove pid pts).2
  | pass (g : ScrabbleGame) (pid : String) : Step g (g.passTurn pid).2
  | exchange (g : ScrabbleGame) (pid : String) (ids : List (Char × Nat))
      (js : List Nat) : Step g (g.exchangeTiles pid ids js).2
  | remove (g : ScrabbleGame) (pid : String) : Step g (g.removePlayer pid)

/-- Turn-cursor validity: in range when the roster is non-empty, pinned to 0
when it is empty. -/
def IndexInv (g : ScrabbleGame) : Prop :=
  g.currentPlayerIndex < g.players.length ∨
    (g.players = [] ∧ g.currentPlayerIndex = 0)

/-- Componentwise agreement of two rosters on everything getGameState
publishes: ids, names, scores, rack sizes and host flags, but not the rack
tiles themselves. -/
def playersMatch : List Player → List Player → Bool
  | [], [] => true
  | p :: ps, q :: qs =>
    p.id == q.id && p.name == q.name && p.score == q.score &&
      p.tiles.length == q.tiles.length && p.isHost == q.isHost && playersMatch ps qs
  | _, _ => false

/-! ### Concrete fixtures used by the witnesses and counterexamples -/

/-- The empty 15x15 board. -/
def emptyBoard : Board := List.replicate 15 (List.replicate 15 none)

def tileA : Tile := { letter := 'A', value := 1, id := ('A', 0) }

def tileB : Tile := { letter := 'B', value := 3, id := ('B', 0) }

def tileZ : Tile := { letter := 'Z', value := 10, id := ('Z', 0) }

/-- A family of distinct value-1 tiles for building racks. -/
def wTile (n : Nat) : Tile := { letter := 'A', value := 1, id := ('A', n) }

/-- One-player session holding tile B on the rack and tile A in the bag. -/
def gC5 : ScrabbleGame :=
  { roomId := "r"
    players := [{ id := "p1", name := "P1", score := 0, tiles := [tileB], isHost := true }]
    currentPlayerIndex := 0
    board := emptyBoard
    tileBag := [tileA]
    gameStarted := true
    firstMoveMade := false
    hostId := some "p1" }

/-- Three-player session for the turn-rotation witness. -/
def g3p : ScrabbleGame :=
  { roomId := "r"
    players :=
      [{ id := "p1", name := "P1", score := 0, tiles := [], isHost := true },
       { id := "p2", name := "P2", score := 0, tiles := [], isHost := false },
       { id := "p3", name := "P3", score := 0, tiles := [], isHost := false }]
    currentPlayerIndex := 0
    board := emptyBoard
    tileBag := []
    gameStarted := true
    firstMoveMade := true
    hostId := some "p1" }

/-- Board with a single tile at the center. -/
def board77 : Board := placeTile emptyBoard 7 7 tileA

/-- Two-player session after the opening move, with a full 7-tile rack for p1
and one tile left in the bag. -/
def gPlay : ScrabbleGame :=
  { roomId := "r"
    players :=
      [{ id := "p1", name := "P1", score := 0,
         tiles := [wTile 1, wTile 2, wTile 3, wTile 4, wTile 5, wTile 6, wTile 7],
         isHost := true },
       { id := "p2", name := "P2", score := 0, tiles := [], isHost := false }]
    currentPlayerIndex := 0
    board := board77
    tileBag := [tileB]
    gameStarted := true
    firstMoveMade := true
    hostId := some "p1" }

/-- A placement of a tile that p1 does not hold, adjacent to the center tile. -/
def pForeign : Placement := { row := 7, col := 8, tile := tileZ }

/-- Sessions for the privacy witness: identical except for the rack tile. -/
def gPrivA : ScrabbleGame :=
  { roomId := "r"
    players := [{ id := "p1", name := "P1", score := 0, tiles := [tileA], isHost := true }]
    currentPlayerIndex := 0
    board := emptyBoard
    tileBag := []
    gameStarted := true
    firstMoveMade := false
    hostId := some "p1" }

def gPrivB : ScrabbleGame :=
  { roomId := "r"
    players := [{ id := "p1", name := "P1", score := 0, tiles := [tileB], isHost := true }]
    currentPlayerIndex := 0
    board := emptyBoard
    tileBag := []
    gameStarted := true
    firstMoveMade := false
    hostId := some "p1" }

/-! ### Permutation helpers -/

theorem replace_perm {α : Type} :
    ∀ (l : List α) (k : Nat) (b x : α), l[k]? = some b →
      List.Perm (b :: l.set k x) (x :: l)
  | [], k, _, _, h => by simp at h
  | c :: cs, 0, b, x, h => by
    simp only [List.getElem?_cons_zero, Option.some.injEq] at h
    subst h
    simp only [List.set_cons_zero]
    exact List.Perm.swap _ _ _
  | c :: cs, k + 1, b, x, h => by
    simp only [List.getElem?_cons_succ] at h
    have ih := replace_perm cs k b x h
    simp only [List.set_cons_succ]
    exact ((List.Perm.swap c b (cs.set k x)).trans (ih.cons c)).trans
      (List.Perm.swap x c cs)

theorem listSwap_perm {α : Type} (l : List α) (i j : Nat) :
    List.Perm (listSwap l i j) l := by
  by_cases hij : i = j
  · subst hij
    cases h1 : l[i]? with
    | none => simp [listSwap, h1]
    | some a =>
      simp only [listSwap, h1]
      rw [List.set_set]
      exact List.Perm.cons_inv (replace_perm l i a a h1)
  · cases h1 : l[i]? with
    | none => simp [listSwap, h1]
    | some a =>
      cases h2 : l[j]? with
      | none => simp [listSwap, h1, h2]
      | some b =>
        simp only [listSwap, h1, h2]
        have h2' : (l.set i b)[j]? = some b := by
          rw [List.getElem?_set_ne hij]; exact h2
        exact List.Perm.cons_inv
          ((replace_perm (l.set i b) j b a h2').trans (replace_perm l i a b h1))

theorem foldl_listSwap_perm {α : Type} (fi fj : Nat → Nat) :
    ∀ (ks : List Nat) (l : List α),
      List.Perm (ks.foldl (fun acc k => listSwap acc (fi k) (fj k)) l) l
  | [], l => List.Perm.refl l
  | k :: ks, l =>
    (foldl_listSwap_perm fi fj ks (listSwap l (fi k) (fj k))).trans
      (listSwap_perm l (fi k) (fj k))

theorem shuffle_perm {α : Type} (array : List α) (js : List Nat) :
    List.Perm (ScrabbleGame.shuffle array js) array := by
  unfold ScrabbleGame.shuffle
  exact foldl_listSwap_perm (fun k => array.length - 1 - k)
    (fun k => js.getD k 0 % (array.length - 1 - k + 1))
    (List.range (array.length - 1)) array

theorem dealTiles_perm (tiles bag : List Tile) (count : Nat) :
    List.Perm
      ((ScrabbleGame.dealTiles tiles bag count).1 ++
        (ScrabbleGame.dealTiles tiles bag count).2)
      (tiles ++ bag) := by
  unfold ScrabbleGame.dealTiles
  rw [List.append_assoc]
  refine List.Perm.append_left tiles ?_
  refine (((bag.drop _).reverse_perm).append_right _).trans ?_
  exact List.perm_append_comm.trans (List.take_append_drop _ _ ▸ List.Perm.refl bag)

theorem dealTiles_conserve (tiles bag : List Tile) (count : Nat) :
    ((ScrabbleGame.dealTiles tiles bag count).1 : Multiset Tile) +
        ((ScrabbleGame.dealTiles tiles bag count).2 : Multiset Tile) =
      (tiles : Multiset Tile) + (bag : Multiset Tile) :=
  Multiset.coe_eq_coe.mpr (dealTiles_perm tiles bag count)

theorem flatMap_set_conserve {α β : Type} (f : α → List β) :
    ∀ (l : List α) (i : Nat) (p x : α), l[i]? = some p →
      ((l.set i x).flatMap f : Multiset β) + (f p : Multiset β) =
        (l.flatMap f : Multiset β) + (f x : Multiset β)
  | [], _, _, _, h => by simp at h
  | q :: qs, 0, p, x, h => by
    simp only [List.getElem?_cons_zero, Option.some.injEq] at h
    subst h
    simp only [List.set_cons_zero, List.flatMap_cons, ← Multiset.coe_add]
    abel
  | q :: qs, i + 1, p, x, h => by
    simp only [List.getElem?_cons_succ] at h
    have ih := flatMap_set_conserve f qs i p x h
    simp only [List.set_cons_succ, List.flatMap_cons, ← Multiset.coe_add]
    rw [add_assoc, add_assoc, ih]

theorem flatMap_eraseIdx_conserve {α β : Type} (f : α → List β) :
    ∀ (l : List α) (i : Nat) (p : α), l[i]? = some p →
      ((l.eraseIdx i).flatMap f : Multiset β) + (f p : Multiset β) =
        (l.flatMap f : Multiset β)
  | [], _, _, h => by simp at h
  | q :: qs, 0, p, h => by
    simp only [List.getElem?_cons_zero, Option.some.injEq] at h
    subst h
    simp only [List.eraseIdx_cons_zero, List.flatMap_cons, ← Multiset.coe_add]
    exact add_comm _ _
  | q :: qs, i + 1, p, h => by
    simp only [List.getElem?_cons_succ] at h
    have ih := flatMap_eraseIdx_conserve f qs i p h
    simp only [List.eraseIdx_cons_succ, List.flatMap_cons, ← Multiset.coe_add]
    rw [add_assoc, ih]

theorem perm_append_cancel {α : Type} {l1 l2 l : List α}
    (h : List.Perm (l1 ++ l) (l2 ++ l)) : List.Perm l1 l2 := by
  have hms := Multiset.coe_eq_coe.mpr h
  have h2 : (l1 : Multiset α) + (l : Multiset α) =
      (l2 : Multiset α) + (l : Multiset α) := hms
  exact Multiset.coe_eq_coe.mp (add_right_cancel h2)

theorem boardTiles_placeTile (b : Board) (r c : Nat) (t : Tile)
    (h : cellAt b r c = some none) :
    (boardTiles (placeTile b r c t) : Multiset Tile) =
      (boardTiles b : Multiset Tile) + {t} := by
  unfold cellAt at h
  cases hr : b[r]? with
  | none => rw [hr] at h; simp at h
  | some rowL =>
    rw [hr] at h
    simp only [Option.some_bind] at h
    have hgd : b.getD r [] = rowL := by
      rw [List.getD_eq_getElem?_getD, hr]; rfl
    unfold placeTile boardTiles
    rw [hgd]
    have h1 := flatMap_set_conserve (fun (rr : List (Option Tile)) => rr)
      b r rowL (rowL.set c (some t)) hr
    have hperm : List.Perm
        ((b.set r (rowL.set c (some t))).flatMap (fun rr => rr) ++ rowL)
        (b.flatMap (fun rr => rr) ++ rowL.set c (some t)) :=
      Multiset.coe_eq_coe.mp h1
    have hFM := hperm.filterMap (fun (x : Option Tile) => x)
    rw [List.filterMap_append, List.filterMap_append] at hFM
    have p3 := (replace_perm rowL c none (some t) h).filterMap (fun (x : Option Tile) => x)
    simp only [List.filterMap_cons] at p3
    have final := hFM.trans (List.Perm.append_left _ p3)
    have final' : List.Perm
        (((b.set r (rowL.set c (some t))).flatMap (fun rr => rr)).filterMap
            (fun (x : Option Tile) => x) ++ rowL.filterMap (fun (x : Option Tile) => x))
        (((b.flatMap (fun rr => rr)).filterMap (fun (x : Option Tile) => x) ++ [t]) ++
          rowL.filterMap (fun (x : Option Tile) => x)) := by
      rw [List.append_assoc]
      exact final
    have hres := Multiset.coe_eq_coe.mpr (perm_append_cancel final')
    exact hres

theorem cellAt_placeTile_ne (b : Board) (r c r' c' : Nat) (t : Tile)
    (h : (r', c') ≠ (r, c)) :
    cellAt (placeTile b r c t) r' c' = cellAt b r' c' := by
  unfold cellAt placeTile
  by_cases hr : r' = r
  · subst hr
    have hc : c' ≠ c := fun hc => h (by rw [hc])
    cases hb : b[r']? with
    | none =>
      rw [List.set_eq_of_length_le (List.getElem?_eq_none_iff.mp hb), hb]
    | some rowL =>
      have hlt : r' < b.length := by
        by_contra hle
        rw [List.getElem?_eq_none_iff.mpr (Nat.le_of_not_lt hle)] at hb
        exact Option.noConfusion hb
      rw [List.getElem?_set_self hlt]
      simp only [Option.some_bind]
      have hgd : b.getD r' [] = rowL := by
        rw [List.getD_eq_getElem?_getD, hb]; rfl
      rw [hgd, List.getElem?_set_ne (fun hh => hc hh.symm)]
  · rw [List.getElem?_set_ne (fun hh => hr hh.symm)]

theorem boardTiles_placeAll :
    ∀ (pts : List Placement) (b : Board),
      (pts.map fun pt => (pt.row, pt.col)).Nodup →
      (∀ pt ∈ pts, cellAt b pt.row pt.col = some none) →
      (boardTiles (pts.foldl (fun bb pt => placeTile bb pt.row pt.col pt.tile) b) :
          Multiset Tile) =
        (boardTiles b : Multiset Tile) + (pts.map Placement.tile : Multiset Tile)
  | [], b, _, _ => by simp
  | pt :: rest, b, hnd, hemp => by
    simp only [List.map_cons, List.nodup_cons] at hnd
    obtain ⟨hnotin, hndrest⟩ := hnd
    have hb1 : cellAt b pt.row pt.col = some none := hemp pt (by simp)
    have hrest : ∀ q ∈ rest,
        cellAt (placeTile b pt.row pt.col pt.tile) q.row q.col = some none := by
      intro q hq
      rw [cellAt_placeTile_ne b pt.row pt.col q.row q.col pt.tile ?hne]
      · exact hemp q (List.mem_cons_of_mem pt hq)
      case hne =>
        intro heq
        exact hnotin (List.mem_map.mpr ⟨q, hq, heq⟩)
    have ih := boardTiles_placeAll rest (placeTile b pt.row pt.col pt.tile) hndrest hrest
    simp only [List.foldl_cons]
    rw [ih, boardTiles_placeTile b pt.row pt.col pt.tile hb1]
    simp only [List.map_cons]
    show (boardTiles b : Multiset Tile) + {pt.tile} + (rest.map Placement.tile : Multiset Tile) =
      (boardTiles b : Multiset Tile) + (pt.tile ::ₘ (rest.map Placement.tile : Multiset Tile))
    rw [add_assoc, Multiset.singleton_add]

theorem rack_filter_eq_played (rack : List Tile) (pts : List Placement)
    (hnd : (rack.map Tile.id).Nodup)
    (hmem : ∀ pt ∈ pts, pt.tile ∈ rack)
    (hids : (pts.map fun pt => pt.tile.id).Nodup) :
    List.Perm (rack.filter fun t => (pts.map fun pt => pt.tile.id).contains t.id)
      (pts.map Placement.tile) := by
  have hracknd : rack.Nodup := hnd.of_map _
  have hptsnd : (pts.map Placement.tile).Nodup := by
    have hmm : ((pts.map Placement.tile).map Tile.id).Nodup := by
      rw [List.map_map]; exact hids
    exact hmm.of_map _
  refine (List.perm_ext_iff_of_nodup (hracknd.filter _) hptsnd).mpr ?_
  intro t
  simp only [List.mem_filter, List.mem_map]
  constructor
  · rintro ⟨htr, hcont⟩
    have hmemid : t.id ∈ pts.map fun pt => pt.tile.id := List.elem_iff.mp hcont
    obtain ⟨pt, hpt, hid⟩ := List.mem_map.mp hmemid
    exact ⟨pt, hpt, List.inj_on_of_nodup_map hnd (hmem pt hpt) htr hid⟩
  · rintro ⟨pt, hpt, rfl⟩
    refine ⟨hmem pt hpt, List.elem_iff.mpr ?_⟩
    exact List.mem_map.mpr ⟨pt, hpt, rfl⟩

theorem filter_split_conserve (l : List Tile) (p : Tile → Bool) :
    ((l.filter fun t => !(p t)) : Multiset Tile) + ((l.filter p) : Multiset Tile) =
      (l : Multiset Tile) := by
  have h := l.filter_append_perm p
  have h2 : ((l.filter p) : Multiset Tile) + ((l.filter fun t => !(p t)) : Multiset Tile) =
      (l : Multiset Tile) := Multiset.coe_eq_coe.mpr h
  rw [add_comm] at h2
  exact h2

/-! ### Minimum, maximum and sorted-endpoint lemmas -/

theorem foldl_min_le : ∀ (xs : List Nat) (x : Nat),
    xs.foldl min x ≤ x ∧ ∀ y ∈ xs, xs.foldl min x ≤ y
  | [], x => ⟨Nat.le_refl x, by simp⟩
  | y :: ys, x => by
    have ih := foldl_min_le ys (min x y)
    simp only [List.foldl_cons]
    refine ⟨le_trans ih.1 (min_le_left x y), ?_⟩
    intro z hz
    rcases List.mem_cons.mp hz with rfl | hz'
    · exact le_trans ih.1 (min_le_right x z)
    · exact ih.2 z hz'

theorem foldl_min_mem : ∀ (xs : List Nat) (x : Nat),
    xs.foldl min x = x ∨ xs.foldl min x ∈ xs
  | [], x => Or.inl rfl
  | y :: ys, x => by
    simp only [List.foldl_cons]
    rcases foldl_min_mem ys (min x y) with h | h
    · rcases Nat.le_total x y with hxy | hxy
      · left; rw [h, min_eq_left hxy]
      · right; rw [h, min_eq_right hxy]; exact List.mem_cons_self y ys
    · right; exact List.mem_cons_of_mem y h

theorem foldl_max_le : ∀ (xs : List Nat) (x : Nat),
    x ≤ xs.foldl max x ∧ ∀ y ∈ xs, y ≤ xs.foldl max x
  | [], x => ⟨Nat.le_refl x, by simp⟩
  | y :: ys, x => by
    have ih := foldl_max_le ys (max x y)
    simp only [List.foldl_cons]
    refine ⟨le_trans (le_max_left x y) ih.1, ?_⟩
    intro z hz
    rcases List.mem_cons.mp hz with rfl | hz'
    · exact le_trans (le_max_right x z) ih.1
    · exact ih.2 z hz'

theorem foldl_max_mem : ∀ (xs : List Nat) (x : Nat),
    xs.foldl max x = x ∨ xs.foldl max x ∈ xs
  | [], x => Or.inl rfl
  | y :: ys, x => by
    simp only [List.foldl_cons]
    rcases foldl_max_mem ys (max x y) with h | h
    · rcases Nat.le_total x y with hxy | hxy
      · right; rw [h, max_eq_right hxy]; exact List.mem_cons_self y ys
      · left; rw [h, max_eq_left hxy]
    · right; exact List.mem_cons_of_mem y h

theorem listMin_le (l : List Nat) (y : Nat) (hy : y ∈ l) : listMin l ≤ y := by
  cases l with
  | nil => simp at hy
  | cons x xs =>
    rcases List.mem_cons.mp hy with rfl | hy'
    · exact (foldl_min_le xs y).1
    · exact (foldl_min_le xs x).2 y hy'

theorem listMin_mem (l : List Nat) (h : l ≠ []) : listMin l ∈ l := by
  cases l with
  | nil => exact absurd rfl h
  | cons x xs =>
    rcases foldl_min_mem xs x with heq | hmem
    · rw [listMin, heq]; exact List.mem_cons_self x xs
    · exact List.mem_cons_of_mem x hmem

theorem le_listMax (l : List Nat) (y : Nat) (hy : y ∈ l) : y ≤ listMax l := by
  cases l with
  | nil => simp at hy
  | cons x xs =>
    rcases List.mem_cons.mp hy with rfl | hy'
    · exact (foldl_max_le xs y).1
    · exact (foldl_max_le xs x).2 y hy'

theorem listMax_mem (l : List Nat) (h : l ≠ []) : listMax l ∈ l := by
  cases l with
  | nil => exact absurd rfl h
  | cons x xs =>
    rcases foldl_max_mem xs x with heq | hmem
    · rw [listMax, heq]; exact List.mem_cons_self x xs
    · exact List.mem_cons_of_mem x hmem

theorem sorted_headD_le (s : List Nat) (hs : List.Sorted (· ≤ ·) s) (y : Nat)
    (hy : y ∈ s) : s.headD 0 ≤ y := by
  cases s with
  | nil => simp at hy
  | cons x xs =>
    rcases List.mem_cons.mp hy with rfl | hy'
    · exact Nat.le_refl y
    · exact (List.sorted_cons.mp hs).1 y hy'

theorem sorted_le_getLastD : ∀ (s : List Nat), List.Sorted (· ≤ ·) s →
    ∀ y ∈ s, y ≤ s.getLastD 0
  | [], _, y, hy => absurd hy (by simp)
  | [x], _, y, hy => by
    simp only [List.mem_singleton] at hy
    subst hy
    exact Nat.le_refl y
  | x :: x2 :: xs, hs, y, hy => by
    have hcons := List.sorted_cons.mp hs
    have ih := sorted_le_getLastD (x2 :: xs) hcons.2
    have hgl : (x :: x2 :: xs).getLastD 0 = (x2 :: xs).getLastD 0 := by
      rw [List.getLastD_cons, List.getLastD_cons, List.getLastD_cons]
    rcases List.mem_cons.mp hy with rfl | hy'
    · rw [hgl]
      exact le_trans (hcons.1 x2 (List.mem_cons_self x2 xs)) (ih x2 (List.mem_cons_self x2 xs))
    · rw [hgl]; exact ih y hy'

theorem getLastD_mem : ∀ (s : List Nat), s ≠ [] → s.getLastD 0 ∈ s
  | [], h => absurd rfl h
  | [x], _ => by simp [List.getLastD]
  | x :: x2 :: xs, _ => by
    have ih := getLastD_mem (x2 :: xs) (by simp)
    have hgl : (x :: x2 :: xs).getLastD 0 = (x2 :: xs).getLastD 0 := by
      rw [List.getLastD_cons, List.getLastD_cons, List.getLastD_cons]
    rw [hgl]
    exact List.mem_cons_of_mem x ih

theorem insertionSort_headD_eq_listMin (l : List Nat) (h : l ≠ []) :
    (l.insertionSort (· ≤ ·)).headD 0 = listMin l := by
  have hperm := List.perm_insertionSort (· ≤ ·) l
  have hsorted := List.sorted_insertionSort (· ≤ ·) l
  have hsne : l.insertionSort (· ≤ ·) ≠ [] := by
    intro hs
    have hlen := hperm.length_eq
    rw [hs] at hlen
    exact h (List.length_eq_zero.mp hlen.symm)
  have hhead_mem : (l.insertionSort (· ≤ ·)).headD 0 ∈ l.insertionSort (· ≤ ·) := by
    cases hv : l.insertionSort (· ≤ ·) with
    | nil => exact absurd hv hsne
    | cons a s => simp
  apply Nat.le_antisymm
  · exact sorted_headD_le _ hsorted (listMin l) (hperm.mem_iff.mpr (listMin_mem l h))
  · exact listMin_le l _ (hperm.mem_iff.mp hhead_mem)

theorem insertionSort_getLastD_eq_listMax (l : List Nat) (h : l ≠ []) :
    (l.insertionSort (· ≤ ·)).getLastD 0 = listMax l := by
  have hperm := List.perm_insertionSort (· ≤ ·) l
  have hsorted := List.sorted_insertionSort (· ≤ ·) l
  have hsne : l.insertionSort (· ≤ ·) ≠ [] := by
    intro hs
    have hlen := hperm.length_eq
    rw [hs] at hlen
    exact h (List.length_eq_zero.mp hlen.symm)
  apply Nat.le_antisymm
  · exact le_listMax l _ (hperm.mem_iff.mp (getLastD_mem _ hsne))
  · exact sorted_le_getLastD _ hsorted (listMax l) (hperm.mem_iff.mpr (listMax_mem l h))

/-! ### Conservation of the tile multiset by each operation -/

theorem allTiles_addPlayer (g : ScrabbleGame) (pid nm : String) :
    ((allTiles (g.addPlayer pid nm).2 : List Tile) : Multiset Tile) =
      ((allTiles g : List Tile) : Multiset Tile) := by
  unfold ScrabbleGame.addPlayer
  split
  · rfl
  · show ((g.tileBag ++ (g.players ++ [_]).flatMap Player.tiles ++ boardTiles g.board :
        List Tile) : Multiset Tile) = _
    rw [List.flatMap_append]
    simp [allTiles, ← Multiset.coe_add]

theorem allTiles_passTurn (g : ScrabbleGame) (pid : String) :
    ((allTiles (g.passTurn pid).2 : List Tile) : Multiset Tile) =
      ((allTiles g : List Tile) : Multiset Tile) := by
  unfold ScrabbleGame.passTurn
  split
  · rfl
  · split
    · rfl
    · split
      · rfl
      · rfl

theorem allTiles_removePlayer (g : ScrabbleGame) (pid : String) :
    ((allTiles (g.removePlayer pid) : List Tile) : Multiset Tile) =
      ((allTiles g : List Tile) : Multiset Tile) := by
  unfold ScrabbleGame.removePlayer
  split
  · rfl
  case h_2 index hidx =>
    split
    · rfl
    case h_2 rp hget =>
      have herase := flatMap_eraseIdx_conserve Player.tiles g.players index rp hget
      have hflat : ∀ (promoted : List Player × Option String),
          promoted.1 = g.players.eraseIdx index ∨
            (∃ p0 rest, g.players.eraseIdx index = p0 :: rest ∧
              promoted.1 = { p0 with isHost := true } :: rest) →
          ((promoted.1.flatMap Player.tiles : List Tile) : Multiset Tile) =
            ((g.players.eraseIdx index).flatMap Player.tiles : Multiset Tile) := by
        rintro promoted (heq | ⟨p0, rest, herased, heq⟩)
        · rw [heq]
        · rw [heq, herased]
          simp [List.flatMap_cons, ← Multiset.coe_add]
      set promoted :=
        (if rp.isHost then
          match g.players.eraseIdx index with
          | [] => (g.players.eraseIdx index, g.hostId)
          | p0 :: rest => ({ p0 with isHost := true } :: rest, some p0.id)
        else (g.players.eraseIdx index, g.hostId)) with hpromoted
      have hcases : promoted.1 = g.players.eraseIdx index ∨
          (∃ p0 rest, g.players.eraseIdx index = p0 :: rest ∧
            promoted.1 = { p0 with isHost := true } :: rest) := by
        rw [hpromoted]
        split
        · split
          · left; rfl
          case h_2 p0 rest heq => right; exact ⟨p0, rest, heq, rfl⟩
        · left; rfl
      have hfl := hflat promoted hcases
      show ((g.tileBag ++ rp.tiles) : Multiset Tile) +
          ((promoted.1.flatMap Player.tiles : List Tile) : Multiset Tile) +
          ((boardTiles g.board : List Tile) : Multiset Tile) =
        (g.tileBag : Multiset Tile) +
          ((g.players.flatMap Player.tiles : List Tile) : Multiset Tile) +
          ((boardTiles g.board : List Tile) : Multiset Tile)
      rw [hfl, ← herase]
      have hsplit : ((g.tileBag ++ rp.tiles : List Tile) : Multiset Tile) =
          (g.tileBag : Multiset Tile) + (rp.tiles : Multiset Tile) := rfl
      rw [hsplit]
      abel

theorem allTiles_exchangeTiles (g : ScrabbleGame) (pid : String)
    (ids : List (Char × Nat)) (js : List Nat) :
    ((allTiles (g.exchangeTiles pid ids js).2 : List Tile) : Multiset Tile) =
      ((allTiles g : List Tile) : Multiset Tile) := by
  unfold ScrabbleGame.exchangeTiles
  split
  · rfl
  next idx hidx =>
    split
    next cur player hcur hplayer =>
      by_cases hturn : cur.id ≠ pid
      · rw [if_pos hturn]
      · rw [if_neg hturn]
        by_cases hbaglen : g.tileBag.length < ids.length
        · rw [if_pos hbaglen]
        · rw [if_neg hbaglen]
          set exchangedTiles := player.tiles.filter (fun t => ids.contains t.id)
            with hexch
          set keptTiles := player.tiles.filter (fun t => !(ids.contains t.id))
            with hkept
          set bag := ScrabbleGame.shuffle (g.tileBag ++ exchangedTiles) js with hbag
          set dealt := ScrabbleGame.dealTiles keptTiles bag exchangedTiles.length
            with hdealt
          have hset : ((g.players.set idx
                { player with tiles := dealt.1 }).flatMap Player.tiles :
                  Multiset Tile) + (player.tiles : Multiset Tile) =
              (g.players.flatMap Player.tiles : Multiset Tile) +
                (dealt.1 : Multiset Tile) :=
            flatMap_set_conserve Player.tiles g.players idx player
              { player with tiles := dealt.1 } hplayer
          have hdc : (dealt.1 : Multiset Tile) + (dealt.2 : Multiset Tile) =
              (keptTiles : Multiset Tile) + (bag : Multiset Tile) :=
            dealTiles_conserve keptTiles bag exchangedTiles.length
          have hshuf : (bag : Multiset Tile) =
              (g.tileBag : Multiset Tile) + (exchangedTiles : Multiset Tile) :=
            Multiset.coe_eq_coe.mpr (shuffle_perm (g.tileBag ++ exchangedTiles) js)
          have hsplit : (keptTiles : Multiset Tile) + (exchangedTiles : Multiset Tile) =
              (player.tiles : Multiset Tile) :=
            filter_split_conserve player.tiles (fun t => ids.contains t.id)
          have key : (dealt.2 : Multiset Tile) +
                ((g.players.set idx { player with tiles := dealt.1 }).flatMap
                  Player.tiles : Multiset Tile) +
                (boardTiles g.board : Multiset Tile) +
                (player.tiles : Multiset Tile) =
              (g.tileBag : Multiset Tile) +
                (g.players.flatMap Player.tiles : Multiset Tile) +
                (boardTiles g.board : Multiset Tile) +
                (player.tiles : Multiset Tile) := by
            calc (dealt.2 : Multiset Tile) +
                  ((g.players.set idx { player with tiles := dealt.1 }).flatMap
                    Player.tiles : Multiset Tile) +
                  (boardTiles g.board : Multiset Tile) +
                  (player.tiles : Multiset Tile)
                = (dealt.2 : Multiset Tile) + (boardTiles g.board : Multiset Tile) +
                  (((g.players.set idx { player with tiles := dealt.1 }).flatMap
                    Player.tiles : Multiset Tile) +
                    (player.tiles : Multiset Tile)) := by abel
              _ = (dealt.2 : Multiset Tile) + (boardTiles g.board : Multiset Tile) +
                  ((g.players.flatMap Player.tiles : Multiset Tile) +
                    (dealt.1 : Multiset Tile)) := by rw [hset]
              _ = (boardTiles g.board : Multiset Tile) +
                  (g.players.flatMap Player.tiles : Multiset Tile) +
                  ((dealt.1 : Multiset Tile) + (dealt.2 : Multiset Tile)) := by abel
              _ = (boardTiles g.board : Multiset Tile) +
                  (g.players.flatMap Player.tiles : Multiset Tile) +
                  ((keptTiles : Multiset Tile) + (bag : Multiset Tile)) := by rw [hdc]
              _ = (boardTiles g.board : Multiset Tile) +
                  (g.players.flatMap Player.tiles : Multiset Tile) +
                  ((keptTiles : Multiset Tile) +
                    ((g.tileBag : Multiset Tile) +
                      (exchangedTiles : Multiset Tile))) := by rw [hshuf]
              _ = (boardTiles g.board : Multiset Tile) +
                  (g.players.flatMap Player.tiles : Multiset Tile) +
                  (g.tileBag : Multiset Tile) +
                  ((keptTiles : Multiset Tile) +
                    (exchangedTiles : Multiset Tile)) := by abel
              _ = (boardTiles g.board : Multiset Tile) +
                  (g.players.flatMap Player.tiles : Multiset Tile) +
                  (g.tileBag : Multiset Tile) +
                  (player.tiles : Multiset Tile) := by rw [hsplit]
              _ = (g.tileBag : Multiset Tile) +
                  (g.players.flatMap Player.tiles : Multiset Tile) +
                  (boardTiles g.board : Multiset Tile) +
                  (player.tiles : Multiset Tile) := by abel
          exact add_right_cancel key
    next => rfl

theorem startDeal_fold_conserve :
    ∀ (ps : List Player) (acc : List Player × List Tile),
      ((ps.foldl startDeal acc).2 : Multiset Tile) +
          (((ps.foldl startDeal acc).1.flatMap Player.tiles : List Tile) : Multiset Tile) =
        (acc.2 : Multiset Tile) +
          ((acc.1.flatMap Player.tiles : List Tile) : Multiset Tile) +
          ((ps.flatMap Player.tiles : List Tile) : Multiset Tile)
  | [], acc => by
    simp only [List.foldl_nil, List.flatMap_nil]
    show (acc.2 : Multiset Tile) + _ = _ + (0 : Multiset Tile)
    rw [add_zero]
  | p :: ps, acc => by
    simp only [List.foldl_cons, List.flatMap_cons]
    rw [startDeal_fold_conserve ps (startDeal acc p)]
    have hd := dealTiles_conserve p.tiles acc.2 7
    have hexp2 : (((startDeal acc p).1.flatMap Player.tiles : List Tile) : Multiset Tile) =
        ((acc.1.flatMap Player.tiles : List Tile) : Multiset Tile) +
          ((ScrabbleGame.dealTiles p.tiles acc.2 7).1 : Multiset Tile) := by
      show (((acc.1 ++ [{ p with tiles := (ScrabbleGame.dealTiles p.tiles acc.2 7).1 }]).flatMap
          Player.tiles : List Tile) : Multiset Tile) = _
      rw [List.flatMap_append]
      simp [List.flatMap_cons, ← Multiset.coe_add]
    have hexp1 : ((startDeal acc p).2 : Multiset Tile) =
        ((ScrabbleGame.dealTiles p.tiles acc.2 7).2 : Multiset Tile) := rfl
    rw [hexp1, hexp2]
    have hrhs : ((p.tiles ++ ps.flatMap Player.tiles : List Tile) : Multiset Tile) =
        (p.tiles : Multiset Tile) +
          ((ps.flatMap Player.tiles : List Tile) : Multiset Tile) := rfl
    rw [hrhs]
    calc ((ScrabbleGame.dealTiles p.tiles acc.2 7).2 : Multiset Tile) +
          (((acc.1.flatMap Player.tiles : List Tile) : Multiset Tile) +
            ((ScrabbleGame.dealTiles p.tiles acc.2 7).1 : Multiset Tile)) +
          ((ps.flatMap Player.tiles : List Tile) : Multiset Tile)
        = ((acc.1.flatMap Player.tiles : List Tile) : Multiset Tile) +
          ((ps.flatMap Player.tiles : List Tile) : Multiset Tile) +
          (((ScrabbleGame.dealTiles p.tiles acc.2 7).1 : Multiset Tile) +
            ((ScrabbleGame.dealTiles p.tiles acc.2 7).2 : Multiset Tile)) := by abel
      _ = ((acc.1.flatMap Player.tiles : List Tile) : Multiset Tile) +
          ((ps.flatMap Player.tiles : List Tile) : Multiset Tile) +
          ((p.tiles : Multiset Tile) + (acc.2 : Multiset Tile)) := by rw [hd]
      _ = (acc.2 : Multiset Tile) +
          ((acc.1.flatMap Player.tiles : List Tile) : Multiset Tile) +
          ((p.tiles : Multiset Tile) +
            ((ps.flatMap Player.tiles : List Tile) : Multiset Tile)) := by abel

theorem allTiles_startGame (g : ScrabbleGame) :
    ((allTiles g.startGame.2 : List Tile) : Multiset Tile) =
      ((allTiles g : List Tile) : Multiset Tile) := by
  unfold ScrabbleGame.startGame
  split
  · rfl
  · have h := startDeal_fold_conserve g.players ([], g.tileBag)
    simp only [List.flatMap_nil] at h
    have h' : ((g.players.foldl startDeal ([], g.tileBag)).2 : Multiset Tile) +
        (((g.players.foldl startDeal ([], g.tileBag)).1.flatMap Player.tiles :
          List Tile) : Multiset Tile) =
        (g.tileBag : Multiset Tile) +
          ((g.players.flatMap Player.tiles : List Tile) : Multiset Tile) := by
      rw [h]
      show (g.tileBag : Multiset Tile) + (0 : Multiset Tile) + _ = _
      rw [add_zero]
    show ((g.players.foldl startDeal ([], g.tileBag)).2 : Multiset Tile) +
        (((g.players.foldl startDeal ([], g.tileBag)).1.flatMap Player.tiles :
          List Tile) : Multiset Tile) +
        ((boardTiles g.board : List Tile) : Multiset Tile) =
      (g.tileBag : Multiset Tile) +
        ((g.players.flatMap Player.tiles : List Tile) : Multiset Tile) +
        ((boardTiles g.board : List Tile) : Multiset Tile)
    rw [h']

theorem allTiles_playMove (g : ScrabbleGame) (pid : String) (pts : List Placement)
    (hrack : ∀ idx p, g.players.findIdx? (fun q => q.id == pid) = some idx →
      g.players[idx]? = some p → ∀ pt ∈ pts, pt.tile ∈ p.tiles)
    (hids : (pts.map fun pt => pt.tile.id).Nodup)
    (hcells : (pts.map fun pt => (pt.row, pt.col)).Nodup)
    (hempty : ∀ pt ∈ pts, cellAt g.board pt.row pt.col = some none)
    (hnodup : ((allTiles g).map Tile.id).Nodup) :
    ((allTiles (g.playMove pid pts).2 : List Tile) : Multiset Tile) =
      ((allTiles g : List Tile) : Multiset Tile) := by
  unfold ScrabbleGame.playMove
  split
  · rfl
  next idx hidx =>
    split
    next cur player hcur hplayer =>
      by_cases hturn : cur.id ≠ pid
      · rw [if_pos hturn]
      · rw [if_neg hturn]
        split
        · rfl
        next hvalid =>
          have hmem : ∀ pt ∈ pts, pt.tile ∈ player.tiles := hrack idx player hidx hplayer
          have herase := flatMap_eraseIdx_conserve Player.tiles g.players idx player hplayer
          have hpermFlat : List.Perm (g.players.flatMap Player.tiles)
              (player.tiles ++ (g.players.eraseIdx idx).flatMap Player.tiles) := by
            apply Multiset.coe_eq_coe.mp
            have hco : ((player.tiles ++ (g.players.eraseIdx idx).flatMap Player.tiles :
                List Tile) : Multiset Tile) =
                (player.tiles : Multiset Tile) +
                  (((g.players.eraseIdx idx).flatMap Player.tiles : List Tile) :
                    Multiset Tile) := rfl
            rw [hco, ← herase]
            exact (add_comm _ _)
          have hracknd : (player.tiles.map Tile.id).Nodup := by
            have h1 : (allTiles g).map Tile.id =
                g.tileBag.map Tile.id ++
                  ((g.players.flatMap Player.tiles).map Tile.id ++
                    (boardTiles g.board).map Tile.id) := by
              unfold allTiles
              rw [List.map_append, List.map_append, List.append_assoc]
            have hmapall := hnodup
            rw [h1] at hmapall
            have h3 := hmapall.of_append_right.of_append_left
            have h4 : List.Perm ((g.players.flatMap Player.tiles).map Tile.id)
                ((player.tiles ++ (g.players.eraseIdx idx).flatMap Player.tiles).map
                  Tile.id) := hpermFlat.map Tile.id
            have h5 := h4.nodup_iff.mp h3
            rw [List.map_append] at h5
            exact h5.of_append_left
          have hplayedperm := rack_filter_eq_played player.tiles pts hracknd hmem hids
          have hboard := boardTiles_placeAll pts g.board hcells hempty
          set keptTiles :=
            player.tiles.filter (fun t => !((pts.map fun pt => pt.tile.id).contains t.id))
            with hkept
          set dealt := ScrabbleGame.dealTiles keptTiles g.tileBag pts.length with hdealt
          set score := ScrabbleGame.calculateScore g.board pts with hscore
          have hsplit : (keptTiles : Multiset Tile) +
              ((player.tiles.filter fun t =>
                (pts.map fun pt => pt.tile.id).contains t.id : List Tile) :
                  Multiset Tile) =
              (player.tiles : Multiset Tile) :=
            filter_split_conserve player.tiles
              (fun t => (pts.map fun pt => pt.tile.id).contains t.id)
          have hremoved : ((player.tiles.filter fun t =>
              (pts.map fun pt => pt.tile.id).contains t.id : List Tile) : Multiset Tile) =
              ((pts.map Placement.tile : List Tile) : Multiset Tile) :=
            Multiset.coe_eq_coe.mpr hplayedperm
          have hset : (((g.players.set idx
                { player with score := player.score + score, tiles := dealt.1 }).flatMap
                Player.tiles : List Tile) : Multiset Tile) +
              (player.tiles : Multiset Tile) =
              ((g.players.flatMap Player.tiles : List Tile) : Multiset Tile) +
                (dealt.1 : Multiset Tile) :=
            flatMap_set_conserve Player.tiles g.players idx player
              { player with score := player.score + score, tiles := dealt.1 } hplayer
          have hdc : (dealt.1 : Multiset Tile) + (dealt.2 : Multiset Tile) =
              (keptTiles : Multiset Tile) + (g.tileBag : Multiset Tile) :=
            dealTiles_conserve keptTiles g.tileBag pts.length
          have key : (dealt.2 : Multiset Tile) +
              (((g.players.set idx
                { player with score := player.score + score, tiles := dealt.1 }).flatMap
                Player.tiles : List Tile) : Multiset Tile) +
              ((boardTiles (pts.foldl (fun b pt => placeTile b pt.row pt.col pt.tile)
                g.board) : List Tile) : Multiset Tile) +
              (player.tiles : Multiset Tile) =
              (g.tileBag : Multiset Tile) +
                ((g.players.flatMap Player.tiles : List Tile) : Multiset Tile) +
                ((boardTiles g.board : List Tile) : Multiset Tile) +
                (player.tiles : Multiset Tile) := by
            rw [hboard]
            calc (dealt.2 : Multiset Tile) +
                  (((g.players.set idx
                    { player with score := player.score + score, tiles := dealt.1 }).flatMap
                    Player.tiles : List Tile) : Multiset Tile) +
                  (((boardTiles g.board : List Tile) : Multiset Tile) +
                    ((pts.map Placement.tile : List Tile) : Multiset Tile)) +
                  (player.tiles : Multiset Tile)
                = (dealt.2 : Multiset Tile) +
                  ((boardTiles g.board : List Tile) : Multiset Tile) +
                  ((pts.map Placement.tile : List Tile) : Multiset Tile) +
                  ((((g.players.set idx
                    { player with score := player.score + score, tiles := dealt.1 }).flatMap
                    Player.tiles : List Tile) : Multiset Tile) +
                    (player.tiles : Multiset Tile)) := by abel
              _ = (dealt.2 : Multiset Tile) +
                  ((boardTiles g.board : List Tile) : Multiset Tile) +
                  ((pts.map Placement.tile : List Tile) : Multiset Tile) +
                  (((g.players.flatMap Player.tiles : List Tile) : Multiset Tile) +
                    (dealt.1 : Multiset Tile)) := by rw [hset]
              _ = ((boardTiles g.board : List Tile) : Multiset Tile) +
                  ((pts.map Placement.tile : List Tile) : Multiset Tile) +
                  ((g.players.flatMap Player.tiles : List Tile) : Multiset Tile) +
                  ((dealt.1 : Multiset Tile) + (dealt.2 : Multiset Tile)) := by abel
              _ = ((boardTiles g.board : List Tile) : Multiset Tile) +
                  ((pts.map Placement.tile : List Tile) : Multiset Tile) +
                  ((g.players.flatMap Player.tiles : List Tile) : Multiset Tile) +
                  ((keptTiles : Multiset Tile) + (g.tileBag : Multiset Tile)) := by rw [hdc]
              _ = ((boardTiles g.board : List Tile) : Multiset Tile) +
                  ((g.players.flatMap Player.tiles : List Tile) : Multiset Tile) +
                  (g.tileBag : Multiset Tile) +
                  ((keptTiles : Multiset Tile) +
                    ((pts.map Placement.tile : List Tile) : Multiset Tile)) := by abel
              _ = ((boardTiles g.board : List Tile) : Multiset Tile) +
                  ((g.players.flatMap Player.tiles : List Tile) : Multiset Tile) +
                  (g.tileBag : Multiset Tile) +
                  ((keptTiles : Multiset Tile) +
                    ((player.tiles.filter fun t =>
                      (pts.map fun pt => pt.tile.id).contains t.id : List Tile) :
                        Multiset Tile)) := by rw [hremoved]
              _ = ((boardTiles g.board : List Tile) : Multiset Tile) +
                  ((g.players.flatMap Player.tiles : List Tile) : Multiset Tile) +
                  (g.tileBag : Multiset Tile) +
                  (player.tiles : Multiset Tile) := by rw [hsplit]
              _ = (g.tileBag : Multiset Tile) +
                  ((g.players.flatMap Player.tiles : List Tile) : Multiset Tile) +
                  ((boardTiles g.board : List Tile) : Multiset Tile) +
                  (player.tiles : Multiset Tile) := by abel
          exact add_right_cancel key
    next => rfl

theorem canonical_length : canonicalTileList.length = 100 := by decide

theorem canonical_id_nodup : (canonicalTileList.map Tile.id).Nodup := by decide

theorem boardTiles_emptyBoard :
    boardTiles (List.replicate 15 (List.replicate 15 none)) = [] := by decide

theorem allTiles_create (roomId : String) (js : List Nat) :
    List.Perm (allTiles (ScrabbleGame.create roomId js)) canonicalTileList := by
  unfold allTiles ScrabbleGame.create ScrabbleGame.initializeTileBag
  simp only [List.flatMap_nil, boardTiles_emptyBoard, List.append_nil]
  exact shuffle_perm canonicalTileList js

/-! ### Claim C1 -/

/-- C1.  Tile conservation: a fresh session holds exactly the canonical
100-tile bag; every engine operation (startGame, playMove with tiles drawn
from the rack of the mover onto distinct empty cells, passTurn, exchangeTiles,
removePlayer, and addPlayer) preserves the multiset union of bag, racks and
board, hence along every operation sequence that union stays a permutation of
the canonical distribution, which has exactly 100 tiles and no repeated tile
id. -/
theorem c1_tile_conservation :
    (∀ (roomId : String) (js : List Nat),
      List.Perm (allTiles (ScrabbleGame.create roomId js)) canonicalTileList) ∧
    (∀ g g', Step g g' → List.Perm (allTiles g) canonicalTileList →
      List.Perm (allTiles g') canonicalTileList) ∧
    (∀ g g', Relation.ReflTransGen Step g g' →
      List.Perm (allTiles g) canonicalTileList →
      List.Perm (allTiles g') canonicalTileList) ∧
    (∀ g, List.Perm (allTiles g) canonicalTileList →
      (allTiles g).length = 100 ∧ ((allTiles g).map Tile.id).Nodup) := by
  have hstep : ∀ g g', Step g g' → List.Perm (allTiles g) canonicalTileList →
      List.Perm (allTiles g') canonicalTileList := by
    intro g g' hs hperm
    cases hs with
    | add pid nm =>
      exact (Multiset.coe_eq_coe.mp (allTiles_addPlayer g pid nm)).trans hperm
    | start => exact (Multiset.coe_eq_coe.mp (allTiles_startGame g)).trans hperm
    | play pid pts hrack hids hcells hempty =>
      have hnodup : ((allTiles g).map Tile.id).Nodup := by
        have hmapperm := hperm.map Tile.id
        exact hmapperm.nodup_iff.mpr canonical_id_nodup
      exact (Multiset.coe_eq_coe.mp
        (allTiles_playMove g pid pts hrack hids hcells hempty hnodup)).trans hperm
    | pass pid => exact (Multiset.coe_eq_coe.mp (allTiles_passTurn g pid)).trans hperm
    | exchange pid ids js =>
      exact (Multiset.coe_eq_coe.mp (allTiles_exchangeTiles g pid ids js)).trans hperm
    | remove pid =>
      exact (Multiset.coe_eq_coe.mp (allTiles_removePlayer g pid)).trans hperm
  refine ⟨allTiles_create, hstep, ?_, ?_⟩
  · intro g g' hchain
    induction hchain with
    | refl => exact fun h => h
    | tail _ hs ih => exact fun h => hstep _ _ hs (ih h)
  · intro g hperm
    constructor
    · rw [hperm.length_eq]; exact canonical_length
    · exact (hperm.map Tile.id).nodup_iff.mpr canonical_id_nodup

/-- Witness for C1 at a concrete session: the fresh session for room "r" with
the identity shuffle, one pass step applied to it, and the 100-tile and
distinct-id consequences. -/
theorem c1_tile_conservation_witness :
    List.Perm (allTiles (ScrabbleGame.create "r" [])) canonicalTileList ∧
    List.Perm (allTiles ((ScrabbleGame.create "r" []).passTurn "p").2)
      canonicalTileList ∧
    ((allTiles (ScrabbleGame.create "r" [])).length = 100 ∧
      ((allTiles (ScrabbleGame.create "r" [])).map Tile.id).Nodup) := by
  have h1 := c1_tile_conservation.1 "r" []
  exact ⟨h1, c1_tile_conservation.2.1 _ _ (Step.pass _ "p") h1,
    c1_tile_conservation.2.2.2 _ h1⟩

/-! ### Claim C3 -/

/-- C3 counterexample.  The claim asserts that (7,7) is not in the DW table
and that the premium-kind function on the empty board does not answer
DoubleWord at (7,7); the code refutes both parts at this concrete input. -/
theorem c3_counterexample :
    ¬((7, 7) ∉ DW_SQUARES ∧
      ScrabbleGame.getPremiumSquare emptyBoard 7 7 ≠ some Premium.DW) := by
  decide

/-- C3 amended.  The static premium table has exactly 8 TW, 17 DW, 12 TL and
24 DL coordinates, but the 17 DW coordinates include the center (7,7), and
the premium-kind function applied to (7,7) on the empty board returns
DoubleWord. -/
theorem c3_premium_table :
    TW_SQUARES.length = 8 ∧ DW_SQUARES.length = 17 ∧ TL_SQUARES.length = 12 ∧
    DL_SQUARES.length = 24 ∧ (7, 7) ∈ DW_SQUARES ∧
    ScrabbleGame.getPremiumSquare emptyBoard 7 7 = some Premium.DW := by
  decide

/-! ### Claim C8 -/

theorem playersMatch_map_summary :
    ∀ (ps qs : List Player), playersMatch ps qs = true →
      ps.map (fun p => PlayerSummary.mk p.id p.name p.score p.tiles.length p.isHost) =
      qs.map (fun p => PlayerSummary.mk p.id p.name p.score p.tiles.length p.isHost)
  | [], [], _ => rfl
  | p :: ps, q :: qs, h => by
    simp only [playersMatch, Bool.and_eq_true, beq_iff_eq] at h
    obtain ⟨⟨⟨⟨⟨hid, hname⟩, hscore⟩, hlen⟩, hhost⟩, hrest⟩ := h
    simp only [List.map_cons]
    rw [playersMatch_map_summary ps qs hrest, hid, hname, hscore, hlen, hhost]
  | [], _ :: _, h => by simp [playersMatch] at h
  | _ :: _, [], h => by simp [playersMatch] at h

/-- C8.  The public projection never reveals rack contents: two sessions that
agree on everything except the tiles inside the racks (rack sizes, bag size
and all other fields equal) produce identical public game states, each player
appearing only as id, name, score, tileCount and isHost. -/
theorem c8_public_view_privacy (g1 g2 : ScrabbleGame)
    (hroom : g1.roomId = g2.roomId)
    (hidx : g1.currentPlayerIndex = g2.currentPlayerIndex)
    (hboard : g1.board = g2.board)
    (hstarted : g1.gameStarted = g2.gameStarted)
    (hhost : g1.hostId = g2.hostId)
    (hbag : g1.tileBag.length = g2.tileBag.length)
    (hplayers : playersMatch g1.players g2.players = true) :
    g1.getGameState = g2.getGameState := by
  unfold ScrabbleGame.getGameState
  rw [hroom, hidx, hboard, hstarted, hhost, hbag,
    playersMatch_map_summary g1.players g2.players hplayers]

/-- Witness for C8: two concrete one-player sessions whose racks hold
different tiles but whose public views coincide. -/
theorem c8_public_view_privacy_witness :
    playersMatch gPrivA.players gPrivB.players = true ∧
    gPrivA.players ≠ gPrivB.players ∧
    gPrivA.getGameState = gPrivB.getGameState :=
  ⟨by decide, by decide,
    c8_public_view_privacy gPrivA gPrivB rfl rfl rfl rfl rfl rfl (by decide)⟩

/-! ### Claim C7 -/

/-- C7.  A successful pass by the current-turn player only advances the turn
cursor to the successor modulo the player count, leaving every other field of
the session untouched; consequently, with 3 players, three consecutive passes
by the respective current players bring currentTurn back to its original
value. -/
theorem c7_pass_frame :
    (∀ (g : ScrabbleGame) (pid : String) (cur : Player),
      g.players[g.currentPlayerIndex]? = some cur → cur.id = pid →
      g.passTurn pid = (none, { g with currentPlayerIndex :=
        (g.currentPlayerIndex + 1) % g.players.length })) ∧
    (∀ (g : ScrabbleGame) (c0 c1 c2 : Player),
      g.players.length = 3 → g.currentPlayerIndex < 3 →
      g.players[g.currentPlayerIndex]? = some c0 →
      ((g.passTurn c0.id).2.players[(g.passTurn c0.id).2.currentPlayerIndex]? =
        some c1) →
      (((g.passTurn c0.id).2.passTurn c1.id).2.players[
        ((g.passTurn c0.id).2.passTurn c1.id).2.currentPlayerIndex]? = some c2) →
      ((((g.passTurn c0.id).2.passTurn c1.id).2.passTurn c2.id).2.currentPlayerIndex =
        g.currentPlayerIndex)) := by
  have hmain : ∀ (g : ScrabbleGame) (pid : String) (cur : Player),
      g.players[g.currentPlayerIndex]? = some cur → cur.id = pid →
      g.passTurn pid = (none, { g with currentPlayerIndex :=
        (g.currentPlayerIndex + 1) % g.players.length }) := by
    intro g pid cur hcur hid
    have hmem : cur ∈ g.players := List.getElem?_mem hcur
    cases hf : g.players.find? (fun p => p.id == pid) with
    | none =>
      exfalso
      have := List.find?_eq_none.mp hf cur hmem
      simp [hid] at this
    | some p =>
      simp only [ScrabbleGame.passTurn, hf, hcur]
      rw [if_neg (not_not_intro hid)]
  refine ⟨hmain, ?_⟩
  intro g c0 c1 c2 hlen hlt hc0 hc1 hc2
  have h1 := hmain g c0.id c0 hc0 rfl
  set g1 := (g.passTurn c0.id).2 with hg1
  have hg1' : g1 = { g with currentPlayerIndex :=
      (g.currentPlayerIndex + 1) % g.players.length } := by rw [hg1, h1]
  have h2 := hmain g1 c1.id c1 hc1 rfl
  set g2 := (g1.passTurn c1.id).2 with hg2
  have hg2' : g2 = { g1 with currentPlayerIndex :=
      (g1.currentPlayerIndex + 1) % g1.players.length } := by rw [hg2, h2]
  have h3 := hmain g2 c2.id c2 hc2 rfl
  have e1 : g1.currentPlayerIndex = (g.currentPlayerIndex + 1) % g.players.length := by
    rw [hg1']
  have e1p : g1.players = g.players := by rw [hg1']
  have e2 : g2.currentPlayerIndex = (g1.currentPlayerIndex + 1) % g1.players.length := by
    rw [hg2']
  have e2p : g2.players = g1.players := by rw [hg2']
  rw [h3]
  show (g2.currentPlayerIndex + 1) % g2.players.length = g.currentPlayerIndex
  rw [e2, e2p, e1, e1p, hlen]
  omega

/-- Witness for C7 on the concrete three-player session: one pass only moves
the cursor, and three passes return it to 0. -/
theorem c7_pass_frame_witness :
    g3p.passTurn "p1" = (none, { g3p with currentPlayerIndex := 1 }) ∧
    (((g3p.passTurn "p1").2.passTurn "p2").2.passTurn "p3").2.currentPlayerIndex =
      g3p.currentPlayerIndex := by
  constructor
  · exact c7_pass_frame.1 g3p "p1"
      { id := "p1", name := "P1", score := 0, tiles := [], isHost := true } rfl rfl
  · exact c7_pass_frame.2 g3p
      { id := "p1", name := "P1", score := 0, tiles := [], isHost := true }
      { id := "p2", name := "P2", score := 0, tiles := [], isHost := false }
      { id := "p3", name := "P3", score := 0, tiles := [], isHost := false }
      rfl (by decide) rfl rfl rfl

/-! ### Claim C10 -/

theorem startDeal_fold_length :
    ∀ (ps : List Player) (acc : List Player × List Tile),
      ((ps.foldl startDeal acc).1).length = acc.1.length + ps.length
  | [], acc => by simp
  | p :: ps, acc => by
    simp only [List.foldl_cons]
    rw [startDeal_fold_length ps (startDeal acc p)]
    show (acc.1 ++ [_]).length + ps.length = _
    simp only [List.length_append, List.length_cons, List.length_nil, List.length_singleton]
    omega

theorem IndexInv_clamp (g : ScrabbleGame) (ps : List Player) (bag : List Tile)
    (hid : Option String) :
    IndexInv
      { g with
        players := ps
        tileBag := bag
        hostId := hid
        currentPlayerIndex :=
          if g.currentPlayerIndex ≥ ps.length then 0 else g.currentPlayerIndex } := by
  show (if g.currentPlayerIndex ≥ ps.length then 0 else g.currentPlayerIndex) < ps.length ∨
    (ps = [] ∧ (if g.currentPlayerIndex ≥ ps.length then 0 else g.currentPlayerIndex) = 0)
  by_cases hge : g.currentPlayerIndex ≥ ps.length
  · rw [if_pos hge]
    cases ps with
    | nil => right; exact ⟨rfl, rfl⟩
    | cons q qs => left; simp
  · rw [if_neg hge]
    left
    omega

/-- C10.  The turn cursor is always a valid index while the roster is
non-empty: fresh sessions satisfy the invariant, every operation preserves it
(turn advancement is taken modulo the player count, and removal resets the
index to 0 exactly when it reaches or exceeds the shrunken count), and the
invariant yields the claimed bound. -/
theorem c10_turn_index_invariant :
    (∀ (roomId : String) (js : List Nat), IndexInv (ScrabbleGame.create roomId js)) ∧
    (∀ (g : ScrabbleGame) (pid nm : String), IndexInv g → IndexInv (g.addPlayer pid nm).2) ∧
    (∀ (g : ScrabbleGame), IndexInv g → IndexInv g.startGame.2) ∧
    (∀ (g : ScrabbleGame) (pid : String) (pts : List Placement),
      IndexInv g → IndexInv (g.playMove pid pts).2) ∧
    (∀ (g : ScrabbleGame) (pid : String), IndexInv g → IndexInv (g.passTurn pid).2) ∧
    (∀ (g : ScrabbleGame) (pid : String) (ids : List (Char × Nat)) (js : List Nat),
      IndexInv g → IndexInv (g.exchangeTiles pid ids js).2) ∧
    (∀ (g : ScrabbleGame) (pid : String), IndexInv g → IndexInv (g.removePlayer pid)) ∧
    (∀ (g : ScrabbleGame), IndexInv g → g.players ≠ [] →
      g.currentPlayerIndex < g.players.length) ∧
    (∀ (g : ScrabbleGame) (pid : String) (idx : Nat) (p : Player),
      g.players.findIdx? (fun q => q.id == pid) = some idx →
      g.players[idx]? = some p →
      (g.removePlayer pid).currentPlayerIndex =
        if g.currentPlayerIndex ≥ (g.removePlayer pid).players.length then 0
        else g.currentPlayerIndex) := by
  refine ⟨?_, ?_, ?_, ?_, ?_, ?_, ?_, ?_, ?_⟩
  · intro roomId js
    exact Or.inr ⟨rfl, rfl⟩
  · intro g pid nm h
    unfold ScrabbleGame.addPlayer
    split
    · exact h
    · rcases h with hlt | ⟨hemp, hzero⟩
      · left
        simp only [List.length_append, List.length_singleton]
        omega
      · left
        rw [hemp, hzero] at *
        simp [IndexInv, hemp, hzero]
  · intro g h
    unfold ScrabbleGame.startGame
    split
    · exact h
    next hcond =>
      have hlen2 : 2 ≤ g.players.length := by
        rcases not_or.mp hcond with ⟨_, h2⟩
        omega
      left
      show g.currentPlayerIndex < (g.players.foldl startDeal ([], g.tileBag)).1.length
      rw [startDeal_fold_length]
      rcases h with hlt | ⟨hemp, _⟩
      · simpa using hlt
      · rw [hemp] at hlen2; simp at hlen2
  · intro g pid pts h
    unfold ScrabbleGame.playMove
    split
    · exact h
    next idx hidx =>
      split
      next cur player hcur hplayer =>
        split
        · exact h
        · split
          · exact h
          · left
            have hlt : idx < g.players.length :=
              (List.getElem?_eq_some.mp hplayer).1
            exact Nat.mod_lt _ (by rw [List.length_set]; omega)
      next => exact h
  · intro g pid h
    unfold ScrabbleGame.passTurn
    split
    · exact h
    · split
      · exact h
      next cur hcur =>
        split
        · exact h
        · left
          have hlt : g.currentPlayerIndex < g.players.length :=
            (List.getElem?_eq_some.mp hcur).1
          exact Nat.mod_lt _ (by omega)
  · intro g pid ids js h
    unfold ScrabbleGame.exchangeTiles
    split
    · exact h
    next idx hidx =>
      split
      next cur player hcur hplayer =>
        split
        · exact h
        · split
          · exact h
          · left
            have hlt : idx < g.players.length :=
              (List.getElem?_eq_some.mp hplayer).1
            exact Nat.mod_lt _ (by rw [List.length_set]; omega)
      next => exact h
  · intro g pid h
    unfold ScrabbleGame.removePlayer
    split
    · exact h
    next idx hidx =>
      split
      · exact h
      next rp hget => exact IndexInv_clamp g _ _ _
  · intro g h hne
    rcases h with hlt | ⟨hemp, _⟩
    · exact hlt
    · exact absurd hemp hne
  · intro g pid idx p hfind hget
    simp only [ScrabbleGame.removePlayer, hfind, hget]

/-- Witness for C10: the fresh session, a pass and a removal on the concrete
three-player session, and the clamp equation for removing p1. -/
theorem c10_turn_index_invariant_witness :
    IndexInv (ScrabbleGame.create "r" []) ∧
    IndexInv (g3p.passTurn "p1").2 ∧
    IndexInv (g3p.removePlayer "p1") ∧
    (g3p.removePlayer "p1").currentPlayerIndex =
      (if g3p.currentPlayerIndex ≥ (g3p.removePlayer "p1").players.length then 0
       else g3p.currentPlayerIndex) := by
  have h3p : IndexInv g3p := Or.inl (by decide)
  exact ⟨c10_turn_index_invariant.1 "r" [],
    c10_turn_index_invariant.2.2.2.2.1 g3p "p1" h3p,
    c10_turn_index_invariant.2.2.2.2.2.2.1 g3p "p1" h3p,
    c10_turn_index_invariant.2.2.2.2.2.2.2.2 g3p "p1" 0
      { id := "p1", name := "P1", score := 0, tiles := [], isHost := true } rfl rfl⟩

/-! ### Claim C6 -/

theorem validateMove_msgs (g : ScrabbleGame) (pts : List Placement) (e : String)
    (h : g.validateMove pts = some e) :
    e ∈ ["No tiles played", "First word must cross the center square",
      "Tiles must be in a single row or column", "Tiles must be contiguous",
      "New tiles must connect to existing tiles"] := by
  unfold ScrabbleGame.validateMove at h
  split at h
  · simp only [Option.some.injEq] at h; subst h; simp
  · split at h
    · simp only [Option.some.injEq] at h; subst h; simp
    · split at h
      · simp only [Option.some.injEq] at h; subst h; simp
      · split at h
        · simp only [Option.some.injEq] at h; subst h; simp
        · split at h
          · simp only [Option.some.injEq] at h; subst h; simp
          · simp at h

/-- C6.  Every rejected operation is atomic and carries one of the enumerated
human-readable reasons: a failing playMove, passTurn or exchangeTiles returns
its message and leaves the session exactly as it was, and in particular a
move attempt by anyone other than the current-turn player fails with the
turn-order error and has no side effects. -/
theorem c6_rejection_atomic :
    (∀ (g : ScrabbleGame) (pid : String) (pts : List Placement) (e : String),
      (g.playMove pid pts).1 = Except.error e →
      (g.playMove pid pts).2 = g ∧
        e ∈ ["Not your turn", "No tiles played",
          "First word must cross the center square",
          "Tiles must be in a single row or column", "Tiles must be contiguous",
          "New tiles must connect to existing tiles"]) ∧
    (∀ (g : ScrabbleGame) (pid : String) (e : String),
      (g.passTurn pid).1 = some e → (g.passTurn pid).2 = g ∧ e = "Not your turn") ∧
    (∀ (g : ScrabbleGame) (pid : String) (ids : List (Char × Nat)) (js : List Nat)
      (e : String), (g.exchangeTiles pid ids js).1 = some e →
      (g.exchangeTiles pid ids js).2 = g ∧
        (e = "Not your turn" ∨ e = "Not enough tiles in bag")) ∧
    (∀ (g : ScrabbleGame) (pid : String) (pts : List Placement) (cur : Player),
      g.players[g.currentPlayerIndex]? = some cur → cur.id ≠ pid →
      g.playMove pid pts = (Except.error "Not your turn", g)) := by
  refine ⟨?_, ?_, ?_, ?_⟩
  · intro g pid pts e h
    rcases hpm : g.playMove pid pts with ⟨res, g2⟩
    rw [hpm] at h
    simp only at h
    unfold ScrabbleGame.playMove at hpm
    split at hpm
    · simp only [Prod.mk.injEq] at hpm
      obtain ⟨h1, h2⟩ := hpm
      subst h2
      rw [← h1] at h
      simp only [Except.error.injEq] at h
      subst h
      exact ⟨rfl, by simp⟩
    next idx hidx =>
      split at hpm
      next cur player hcur hplayer =>
        split at hpm
        · simp only [Prod.mk.injEq] at hpm
          obtain ⟨h1, h2⟩ := hpm
          subst h2
          rw [← h1] at h
          simp only [Except.error.injEq] at h
          subst h
          exact ⟨rfl, by simp⟩
        · split at hpm
          next e2 hval =>
            simp only [Prod.mk.injEq] at hpm
            obtain ⟨h1, h2⟩ := hpm
            subst h2
            rw [← h1] at h
            simp only [Except.error.injEq] at h
            subst h
            refine ⟨rfl, ?_⟩
            have hm := validateMove_msgs g pts _ hval
            simp only [List.mem_cons, List.not_mem_nil, or_false] at hm ⊢
            rcases hm with hmm | hmm | hmm | hmm | hmm <;> simp [hmm]
          next hval =>
            simp only [Prod.mk.injEq] at hpm
            obtain ⟨h1, h2⟩ := hpm
            rw [← h1] at h
            simp at h
      next =>
        simp only [Prod.mk.injEq] at hpm
        obtain ⟨h1, h2⟩ := hpm
        subst h2
        rw [← h1] at h
        simp only [Except.error.injEq] at h
        subst h
        exact ⟨rfl, by simp⟩
  · intro g pid e h
    rcases hpm : g.passTurn pid with ⟨res, g2⟩
    rw [hpm] at h
    simp only at h
    unfold ScrabbleGame.passTurn at hpm
    split at hpm
    · simp only [Prod.mk.injEq] at hpm
      obtain ⟨h1, h2⟩ := hpm
      subst h2
      rw [← h1] at h
      simp only [Option.some.injEq] at h
      exact ⟨rfl, h.symm⟩
    · split at hpm
      · simp only [Prod.mk.injEq] at hpm
        obtain ⟨h1, h2⟩ := hpm
        subst h2
        rw [← h1] at h
        simp only [Option.some.injEq] at h
        exact ⟨rfl, h.symm⟩
      · split at hpm
        · simp only [Prod.mk.injEq] at hpm
          obtain ⟨h1, h2⟩ := hpm
          subst h2
          rw [← h1] at h
          simp only [Option.some.injEq] at h
          exact ⟨rfl, h.symm⟩
        · simp only [Prod.mk.injEq] at hpm
          obtain ⟨h1, h2⟩ := hpm
          rw [← h1] at h
          simp at h
  · intro g pid ids js e h
    rcases hpm : g.exchangeTiles pid ids js with ⟨res, g2⟩
    rw [hpm] at h
    simp only at h
    unfold ScrabbleGame.exchangeTiles at hpm
    split at hpm
    · simp only [Prod.mk.injEq] at hpm
      obtain ⟨h1, h2⟩ := hpm
      subst h2
      rw [← h1] at h
      simp only [Option.some.injEq] at h
      exact ⟨rfl, Or.inl h.symm⟩
    next idx hidx =>
      split at hpm
      next cur player hcur hplayer =>
        split at hpm
        · simp only [Prod.mk.injEq] at hpm
          obtain ⟨h1, h2⟩ := hpm
          subst h2
          rw [← h1] at h
          simp only [Option.some.injEq] at h
          exact ⟨rfl, Or.inl h.symm⟩
        · split at hpm
          · simp only [Prod.mk.injEq] at hpm
            obtain ⟨h1, h2⟩ := hpm
            subst h2
            rw [← h1] at h
            simp only [Option.some.injEq] at h
            exact ⟨rfl, Or.inr h.symm⟩
          · simp only [Prod.mk.injEq] at hpm
            obtain ⟨h1, h2⟩ := hpm
            rw [← h1] at h
            simp at h
      next =>
        simp only [Prod.mk.injEq] at hpm
        obtain ⟨h1, h2⟩ := hpm
        subst h2
        rw [← h1] at h
        simp only [Option.some.injEq] at h
        exact ⟨rfl, Or.inl h.symm⟩
  · intro g pid pts cur hcur hne
    unfold ScrabbleGame.playMove
    cases hf : g.players.findIdx? (fun p => p.id == pid) with
    | none => simp only [hf]
    | some idx =>
      cases hp : g.players[idx]? with
      | none => simp only [hf, hcur, hp]
      | some p =>
        simp only [hf, hcur, hp]
        rw [if_pos hne]

/-- Witness for C6: a move by a non-current player is rejected with the
turn-order error and no state change, and failing pass and exchange calls
also leave their sessions untouched. -/
theorem c6_rejection_atomic_witness :
    gPlay.playMove "p2" [pForeign] = (Except.error "Not your turn", gPlay) ∧
    (gPlay.playMove "p2" [pForeign]).2 = gPlay ∧
    (g3p.passTurn "p2").2 = g3p ∧
    (gC5.exchangeTiles "p1" [('B', 0), ('X', 9)] []).2 = gC5 := by
  have h4 := c6_rejection_atomic.2.2.2 gPlay "p2" [pForeign]
    { id := "p1", name := "P1", score := 0,
      tiles := [wTile 1, wTile 2, wTile 3, wTile 4, wTile 5, wTile 6, wTile 7],
      isHost := true } rfl (by decide)
  have h1 := c6_rejection_atomic.1 gPlay "p2" [pForeign] "Not your turn" (by rw [h4])
  have h2 := c6_rejection_atomic.2.1 g3p "p2" "Not your turn" rfl
  have h3 := c6_rejection_atomic.2.2.1 gC5 "p1" [('B', 0), ('X', 9)] []
    "Not enough tiles in bag" rfl
  exact ⟨h4, h1.1, h2.1, h3.1⟩

/-! ### Claim C9 -/

/-- C9.  playMove never checks that the placed tiles belong to the mover's
rack: when the current-turn player submits a geometrically valid placement
whose tile ids do not occur in their rack, the move succeeds with the
computed score, the rack loses nothing and is still refilled by the full
placed-tile count up to bag availability, so the rack strictly grows. -/
theorem c9_no_rack_ownership_check (g : ScrabbleGame) (pid : String)
    (pts : List Placement) (idx : Nat) (player cur : Player)
    (hidx : g.players.findIdx? (fun q => q.id == pid) = some idx)
    (hplayer : g.players[idx]? = some player)
    (hcur : g.players[g.currentPlayerIndex]? = some cur)
    (hturn : cur.id = pid)
    (hvalid : g.validateMove pts = none)
    (hforeign : ∀ t ∈ player.tiles, t.id ∉ pts.map fun pt => pt.tile.id)
    (hne : pts ≠ [])
    (hbag : g.tileBag ≠ []) :
    (g.playMove pid pts).1 = Except.ok (ScrabbleGame.calculateScore g.board pts) ∧
    ∃ p', (g.playMove pid pts).2.players[idx]? = some p' ∧
      (∃ drawn, p'.tiles = player.tiles ++ drawn ∧
        drawn.length = min pts.length g.tileBag.length) ∧
      p'.tiles.length = player.tiles.length + min pts.length g.tileBag.length ∧
      player.tiles.length < p'.tiles.length := by
  have hfilter : player.tiles.filter
      (fun t => !((pts.map fun pt => pt.tile.id).contains t.id)) = player.tiles := by
    apply List.filter_eq_self.mpr
    intro t ht
    simp only [Bool.not_eq_true']
    cases hcc : (pts.map fun pt => pt.tile.id).contains t.id
    · rfl
    · exact absurd (List.elem_iff.mp hcc) (hforeign t ht)
  have hlt : idx < g.players.length := (List.getElem?_eq_some.mp hplayer).1
  have hk1 : 1 ≤ min pts.length g.tileBag.length :=
    le_min (List.length_pos.mpr hne) (List.length_pos.mpr hbag)
  have hkle : min pts.length g.tileBag.length ≤ g.tileBag.length :=
    min_le_right _ _
  simp only [ScrabbleGame.playMove, hidx, hplayer, hcur, hvalid]
  rw [if_neg (not_not_intro hturn)]
  simp only [hfilter]
  refine ⟨by simp, ?_⟩
  refine ⟨{ player with
      score := player.score + ScrabbleGame.calculateScore g.board pts,
      tiles := (ScrabbleGame.dealTiles player.tiles g.tileBag pts.length).1 }, ?_, ?_, ?_, ?_⟩
  · exact List.getElem?_set_self hlt
  · refine ⟨(g.tileBag.drop
      (g.tileBag.length - min pts.length g.tileBag.length)).reverse, rfl, ?_⟩
    simp only [List.length_reverse, List.length_drop]
    omega
  · show (ScrabbleGame.dealTiles player.tiles g.tileBag pts.length).1.length = _
    unfold ScrabbleGame.dealTiles
    simp only [List.length_append, List.length_reverse, List.length_drop]
    omega
  · show player.tiles.length <
      (ScrabbleGame.dealTiles player.tiles g.tileBag pts.length).1.length
    unfold ScrabbleGame.dealTiles
    simp only [List.length_append, List.length_reverse, List.length_drop]
    omega

/-- Witness for C9: on the concrete session gPlay, the current player plays a
tile they do not hold; the move succeeds and their rack grows from 7 to 8
tiles. -/
theorem c9_no_rack_ownership_check_witness :
    (gPlay.playMove "p1" [pForeign]).1 =
      Except.ok (ScrabbleGame.calculateScore gPlay.board [pForeign]) ∧
    ∃ p', (gPlay.playMove "p1" [pForeign]).2.players[0]? = some p' ∧
      (∃ drawn, p'.tiles =
        [wTile 1, wTile 2, wTile 3, wTile 4, wTile 5, wTile 6, wTile 7] ++ drawn ∧
        drawn.length = min [pForeign].length gPlay.tileBag.length) ∧
      p'.tiles.length = 7 + min [pForeign].length gPlay.tileBag.length ∧
      7 < p'.tiles.length := by
  exact c9_no_rack_ownership_check gPlay "p1" [pForeign] 0
    { id := "p1", name := "P1", score := 0,
      tiles := [wTile 1, wTile 2, wTile 3, wTile 4, wTile 5, wTile 6, wTile 7],
      isHost := true }
    { id := "p1", name := "P1", score := 0,
      tiles := [wTile 1, wTile 2, wTile 3, wTile 4, wTile 5, wTile 6, wTile 7],
      isHost := true }
    rfl rfl rfl rfl rfl (by decide) (by decide) (by decide)

/-! ### Claim C2 -/

theorem scoreStep_eq (b : Board) (acc : Nat × Nat) (pt : Placement) :
    scoreStep b acc pt = (acc.1 + specLetterScore b pt, acc.2 * specWordFactor b pt) := by
  unfold scoreStep specLetterScore specWordFactor
  cases hk : ScrabbleGame.getPremiumSquare b pt.row pt.col with
  | none => simp [hk]
  | some p => cases p <;> simp [hk]

theorem scoreStep_foldl (b : Board) :
    ∀ (pts : List Placement) (a m : Nat),
      pts.foldl (scoreStep b) (a, m) =
        (a + (pts.map (specLetterScore b)).sum, m * (pts.map (specWordFactor b)).prod)
  | [], a, m => by simp
  | pt :: rest, a, m => by
    simp only [List.foldl_cons, List.map_cons, List.sum_cons, List.prod_cons]
    rw [scoreStep_eq, scoreStep_foldl b rest, Nat.add_assoc, Nat.mul_assoc]

/-- C2.  For a non-empty move in a single line onto distinct empty cells, the
score computed by the engine equals the specified formula: (sum of per-tile
letter scores with DL doubling and TL tripling, plus the raw values of
pre-existing tiles inside the placed min-max range) times the product of the
per-tile word factors, plus a flat 50 exactly when 7 tiles were placed,
premiums being read against the pre-move board. -/
theorem c2_score_formula (b : Board) (pts : List Placement)
    (hne : pts ≠ [])
    (hempty : ∀ pt ∈ pts, cellAt b pt.row pt.col = some none)
    (hline : (pts.map Placement.row).dedup.length = 1 ∨
      (pts.map Placement.col).dedup.length = 1)
    (hcells : (pts.map fun pt => (pt.row, pt.col)).Nodup) :
    ScrabbleGame.calculateScore b pts = specScore b pts := by
  cases pts with
  | nil => exact absurd rfl hne
  | cons pt0 rest =>
    unfold ScrabbleGame.calculateScore specScore specLineBonus
    rw [scoreStep_foldl]
    dsimp only
    have hcolne : (pt0 :: rest).map Placement.col ≠ [] := by simp
    have hrowne : (pt0 :: rest).map Placement.row ≠ [] := by simp
    rw [insertionSort_headD_eq_listMin _ hcolne, insertionSort_getLastD_eq_listMax _ hcolne,
      insertionSort_headD_eq_listMin _ hrowne, insertionSort_getLastD_eq_listMax _ hrowne]
    simp only [List.map_cons, List.headD_cons, Nat.zero_add, Nat.one_mul]
    by_cases h7 : (pt0 :: rest).length = 7
    · simp only [if_pos h7]
      by_cases hrow : ((pt0 :: rest).map Placement.row).dedup.length = 1
      · simp only [List.map_cons] at hrow
        simp only [if_pos hrow]
      · simp only [List.map_cons] at hrow
        simp only [if_neg hrow]
    · simp only [if_neg h7, Nat.add_zero]
      by_cases hrow : ((pt0 :: rest).map Placement.row).dedup.length = 1
      · simp only [List.map_cons] at hrow
        simp only [if_pos hrow]
      · simp only [List.map_cons] at hrow
        simp only [if_neg hrow]

/-- Witness for C2: two tiles of values 3 and 10 placed around the existing
center tile of value 1, no premium involved, score (3 + 10 + 1) * 1 = 14 on
both the engine and the spec formula. -/
theorem c2_score_formula_witness :
    ScrabbleGame.calculateScore board77
        [{ row := 7, col := 6, tile := tileB }, { row := 7, col := 8, tile := tileZ }] =
      specScore board77
        [{ row := 7, col := 6, tile := tileB }, { row := 7, col := 8, tile := tileZ }] ∧
    ScrabbleGame.calculateScore board77
        [{ row := 7, col := 6, tile := tileB }, { row := 7, col := 8, tile := tileZ }] = 14 := by
  refine ⟨c2_score_formula board77 _ (by decide) (by decide) (by decide) (by decide), ?_⟩
  decide

/-! ### Claim C4 -/

theorem all_congr_mem {α : Type} {l : List α} {f g : α → Bool}
    (h : ∀ x ∈ l, f x = g x) : l.all f = l.all g := by
  induction l with
  | nil => rfl
  | cons a as ih =>
    simp only [List.all_cons]
    rw [h a (List.mem_cons_self a as), ih (fun x hx => h x (List.mem_cons_of_mem a hx))]

theorem cellNotNull_eq_occupiedAt (b : Board) (r c : Nat) (hwf : boardWf b)
    (hr : r < 15) (hc : c < 15) : cellNotNull b r c = occupiedAt b r c := by
  obtain ⟨hlen, hrows⟩ := hwf
  have hrb : r < b.length := by omega
  have hrowL : b[r]? = some b[r] := List.getElem?_eq_getElem hrb
  have hmem : b[r] ∈ b := List.getElem_mem hrb
  have hclen : c < b[r].length := by rw [hrows _ hmem]; exact hc
  have hcell : b[r][c]? = some (b[r][c]) := List.getElem?_eq_getElem hclen
  simp only [cellNotNull, occupiedAt, hrowL, hcell]
  cases b[r][c] <;> rfl

theorem contiguousCheck_eq_spec (b : Board) (pt0 : Placement) (rest : List Placement)
    (hin : ∀ pt ∈ pt0 :: rest, pt.row < 15 ∧ pt.col < 15)
    (hwf : boardWf b) :
    ScrabbleGame.contiguousCheck b (pt0 :: rest) pt0 = specContiguous b (pt0 :: rest) := by
  unfold ScrabbleGame.contiguousCheck specContiguous
  dsimp only
  have hcolne : (pt0 :: rest).map Placement.col ≠ [] := by simp
  have hrowne : (pt0 :: rest).map Placement.row ≠ [] := by simp
  rw [insertionSort_headD_eq_listMin _ hcolne, insertionSort_getLastD_eq_listMax _ hcolne,
    insertionSort_headD_eq_listMin _ hrowne, insertionSort_getLastD_eq_listMax _ hrowne]
  simp only [List.map_cons, List.headD_cons]
  have hr0 : pt0.row < 15 := (hin pt0 (List.mem_cons_self pt0 rest)).1
  have hc0 : pt0.col < 15 := (hin pt0 (List.mem_cons_self pt0 rest)).2
  split
  · -- row branch
    apply all_congr_mem
    intro i hi
    have hmax : listMax ((pt0 :: rest).map Placement.col) ∈
        (pt0 :: rest).map Placement.col := by
      have := listMax_mem _ (by simp : (pt0 :: rest).map Placement.col ≠ [])
      simpa using this
    have hmax15 : listMax ((pt0 :: rest).map Placement.col) < 15 := by
      obtain ⟨pt, hpt, heq⟩ := List.mem_map.mp hmax
      rw [← heq]
      exact (hin pt hpt).2
    have hi15 : i < 15 := by
      have hmem := List.mem_range'_1.mp hi
      simp only [List.map_cons] at hmax15
      omega
    rw [cellNotNull_eq_occupiedAt b pt0.row i ⟨hwf.1, hwf.2⟩ hr0 hi15]
  · -- column branch
    apply all_congr_mem
    intro i hi
    have hmax : listMax ((pt0 :: rest).map Placement.row) ∈
        (pt0 :: rest).map Placement.row := by
      have := listMax_mem _ (by simp : (pt0 :: rest).map Placement.row ≠ [])
      simpa using this
    have hmax15 : listMax ((pt0 :: rest).map Placement.row) < 15 := by
      obtain ⟨pt, hpt, heq⟩ := List.mem_map.mp hmax
      rw [← heq]
      exact (hin pt hpt).1
    have hi15 : i < 15 := by
      have hmem := List.mem_range'_1.mp hi
      simp only [List.map_cons] at hmax15
      omega
    rw [cellNotNull_eq_occupiedAt b i pt0.col ⟨hwf.1, hwf.2⟩ hi15 hc0]

/-- C4.  For placements on the 15x15 board, the engine validator agrees with
the specification checker that applies the five checks in spec order with
first-failure-wins semantics: non-empty set, center coverage before the
opening move, single row or column, contiguity over the min-max range, and
adjacency after the opening move; moreover the five reported reasons are
pairwise distinct, and a set passing all checks is accepted (both return
none). -/
theorem c4_validation_order :
    (∀ (g : ScrabbleGame) (pts : List Placement),
      (∀ pt ∈ pts, pt.row < 15 ∧ pt.col < 15) → boardWf g.board →
      g.validateMove pts = specValidateMove g pts) ∧
    (["No tiles played", "First word must cross the center square",
      "Tiles must be in a single row or column", "Tiles must be contiguous",
      "New tiles must connect to existing tiles"] : List String).Nodup := by
  refine ⟨?_, by decide⟩
  intro g pts hin hwf
  cases pts with
  | nil => rfl
  | cons pt0 rest =>
    unfold ScrabbleGame.validateMove specValidateMove
    dsimp only
    rw [contiguousCheck_eq_spec g.board pt0 rest hin hwf]
    simp only [List.isEmpty_cons]
    rfl

/-- Witness for C4: on the concrete post-opening session, engine and spec
validator agree, and the concrete adjacent single-tile move is accepted. -/
theorem c4_validation_order_witness :
    gPlay.validateMove [pForeign] = specValidateMove gPlay [pForeign] ∧
    gPlay.validateMove [pForeign] = none := by
  refine ⟨c4_validation_order.1 gPlay [pForeign] (by decide) ⟨by decide, by decide⟩,
    by decide⟩

/-! ### Claim C5 -/

/-- C5 counterexample.  In the concrete session gC5 the caller is on turn and
the bag is large enough; the player exchanges tile B, the shuffle outcome is
the identity, and the drawn replacement is exactly tile B again — refuting
that replacements always exclude the just-returned tiles. -/
theorem c5_counterexample :
    (gC5.exchangeTiles "p1" [('B', 0)] [1]).1 = none ∧
    ((gC5.exchangeTiles "p1" [('B', 0)] [1]).2.players.map Player.tiles) = [[tileB]] ∧
    tileB ∈ (gC5.players.map Player.tiles).flatten ∧
    tileB.id ∈ [('B', 0)] := by
  decide

/-- C5 amended.  Under the exchange preconditions the operation succeeds and
the data flow is: the exchanged tiles are appended to the bag first, the
whole bag (still containing them) is shuffled, and the replacements are drawn
from the tail of that shuffled bag; consequently the replacements are NOT
guaranteed to exclude the returned tiles, and for some shuffle outcome the
player redraws a tile they just exchanged. -/
theorem c5_exchange_order (g : ScrabbleGame) (pid : String) (ids : List (Char × Nat))
    (js : List Nat) (idx : Nat) (player cur : Player)
    (hidx : g.players.findIdx? (fun q => q.id == pid) = some idx)
    (hcur : g.players[g.currentPlayerIndex]? = some cur)
    (hplayer : g.players[idx]? = some player)
    (hturn : cur.id = pid)
    (hbag : ids.length ≤ g.tileBag.length) :
    (g.exchangeTiles pid ids js).1 = none ∧
    (∀ exchanged kept shuffled,
      exchanged = player.tiles.filter (fun t => ids.contains t.id) →
      kept = player.tiles.filter (fun t => !(ids.contains t.id)) →
      shuffled = ScrabbleGame.shuffle (g.tileBag ++ exchanged) js →
      List.Perm shuffled (g.tileBag ++ exchanged) ∧
      (g.exchangeTiles pid ids js).2.tileBag =
        (ScrabbleGame.dealTiles kept shuffled exchanged.length).2 ∧
      (g.exchangeTiles pid ids js).2.players[idx]? =
        some { player with
          tiles := (ScrabbleGame.dealTiles kept shuffled exchanged.length).1 } ∧
      (ScrabbleGame.dealTiles kept shuffled exchanged.length).1 =
        kept ++ (shuffled.drop (shuffled.length - exchanged.length)).reverse) ∧
    (∃ (gw : ScrabbleGame) (pidw : String) (idsw : List (Char × Nat)) (jsw : List Nat)
      (tw : Tile) (idxw : Nat) (pw curw pr : Player),
      gw.players.findIdx? (fun q => q.id == pidw) = some idxw ∧
      gw.players[gw.currentPlayerIndex]? = some curw ∧
      gw.players[idxw]? = some pw ∧ curw.id = pidw ∧
      idsw.length ≤ gw.tileBag.length ∧
      tw ∈ pw.tiles ∧ tw.id ∈ idsw ∧
      (gw.exchangeTiles pidw idsw jsw).2.players[idxw]? = some pr ∧
      tw ∈ pr.tiles) := by
  have hlt : idx < g.players.length := (List.getElem?_eq_some.mp hplayer).1
  refine ⟨?_, ?_, ?_⟩
  · simp only [ScrabbleGame.exchangeTiles, hidx, hcur, hplayer]
    rw [if_neg (not_not_intro hturn), if_neg (Nat.not_lt.mpr hbag)]
  · intro exchanged kept shuffled heq hkeq hseq
    subst heq hkeq hseq
    have hperm : List.Perm
        (ScrabbleGame.shuffle
          (g.tileBag ++ player.tiles.filter (fun t => ids.contains t.id)) js)
        (g.tileBag ++ player.tiles.filter (fun t => ids.contains t.id)) :=
      shuffle_perm _ js
    have hslen : (ScrabbleGame.shuffle
        (g.tileBag ++ player.tiles.filter (fun t => ids.contains t.id)) js).length =
        g.tileBag.length + (player.tiles.filter (fun t => ids.contains t.id)).length := by
      rw [hperm.length_eq, List.length_append]
    refine ⟨hperm, ?_, ?_, ?_⟩
    · simp only [ScrabbleGame.exchangeTiles, hidx, hcur, hplayer]
      rw [if_neg (not_not_intro hturn), if_neg (Nat.not_lt.mpr hbag)]
    · simp only [ScrabbleGame.exchangeTiles, hidx, hcur, hplayer]
      rw [if_neg (not_not_intro hturn), if_neg (Nat.not_lt.mpr hbag)]
      exact List.getElem?_set_self hlt
    · unfold ScrabbleGame.dealTiles
      rw [show min (player.tiles.filter (fun t => ids.contains t.id)).length
          (ScrabbleGame.shuffle
            (g.tileBag ++ player.tiles.filter (fun t => ids.contains t.id)) js).length =
          (player.tiles.filter (fun t => ids.contains t.id)).length from by
        rw [hslen]; exact min_eq_left (by omega)]
  · refine ⟨gC5, "p1", [('B', 0)], [1], tileB, 0,
      { id := "p1", name := "P1", score := 0, tiles := [tileB], isHost := true },
      { id := "p1", name := "P1", score := 0, tiles := [tileB], isHost := true },
      { id := "p1", name := "P1", score := 0, tiles := [tileB], isHost := true },
      rfl, rfl, rfl, rfl, by decide, by decide, by decide, by decide, by decide⟩

/-- Witness for C5 on the concrete session gC5: the exchange succeeds and the
draw source is the shuffled bag that already holds the returned tile. -/
theorem c5_exchange_order_witness :
    (gC5.exchangeTiles "p1" [('B', 0)] [1]).1 = none ∧
    List.Perm (ScrabbleGame.shuffle (gC5.tileBag ++ [tileB]) [1])
      (gC5.tileBag ++ [tileB]) := by
  have h := c5_exchange_order gC5 "p1" [('B', 0)] [1] 0
    { id := "p1", name := "P1", score := 0, tiles := [tileB], isHost := true }
    { id := "p1", name := "P1", score := 0, tiles := [tileB], isHost := true }
    rfl rfl rfl rfl (by decide)
  refine ⟨h.1, ?_⟩
  exact (h.2.1 [tileB] [] (ScrabbleGame.shuffle (gC5.tileBag ++ [tileB]) [1])
    (by decide) (by decide) rfl).1
